import Mathlib

/-!
# rag-extension: a shallow embedding of the agent pipeline

The development follows the Go sources `embedding/datasets.go` and
`agent/service.go`.  Stateful code is written with explicit state passing:
every operation returns the list of calls it made to the outside world (an
`Event` log) next to its Go return values.  The floating-point operations of
`FindBestDataset` are the fields of an `Arith` record; `ieee` is the record of
the IEEE 754 operations on `float32` and `float64` that Go prescribes, with
rounding to nearest even, infinities and NaN.

Everything the sources call but do not define (the `copilot` client
package, the file system, the standard library decoders and `ecdsa.Verify`)
is a field of `Env` or `StdLib`.
-/

namespace RagExtension

/-! ## Data model -/

/-- A byte string, each element below 256. -/
abbrev Bytes := List Nat

/-- An open file: what `io.ReadAll` yields for it, the bytes read and the
error returned next to them (if any). -/
structure File where
  content : String
  readErr : Option String
deriving DecidableEq, Repr

/-- The `copilot.ChatMessage` record. -/
structure ChatMessage where
  Role : String
  Content : String
deriving DecidableEq, Repr

/-- The `copilot.ChatRequest` record. -/
structure ChatRequest where
  Messages : List ChatMessage
deriving DecidableEq, Repr

/-- The `copilot.ChatCompletionsRequest` record. -/
structure ChatCompletionsRequest where
  Model : String
  Messages : List ChatMessage
  Stream : Bool
deriving DecidableEq, Repr

/-- The error a `bufio.Scanner` reports after its last line; `isEOF` is the
value of `errors.Is(err, io.EOF)`. -/
structure ReadError where
  msg : String
  isEOF : Bool
deriving DecidableEq, Repr

/-- The upstream response as the scanner sees it: the lines `Scan` yields and
the value of `Err()` once `Scan` has returned false. -/
structure Upstream where
  lines : List String
  err : Option ReadError
deriving DecidableEq, Repr

/-- The `embedding.Dataset` record. -/
structure Dataset (α : Type) where
  Embedding : List α
  Filename : String
deriving DecidableEq, Repr

/-- Calls that leave the code under study, in the order they are made. -/
inductive Event where
  | readDir (name : String)
  | openFile (name : String)
  | readAll (name : String)
  | embeddings (integrationID apiToken model : String) (input : List String)
  | findBestDataset
  | chatCompletions (integrationID apiToken : String) (req : ChatCompletionsRequest)
  | write (data : String)
  | writeHeader (code : Nat)
  | closeStream
deriving DecidableEq, Repr

/-! ## Floating-point numbers -/

/-- A floating-point value of Go, `float32` or `float64`: not-a-number, an
infinity, or the finite value `(-1)^neg * k * 2^(-1074)`.  Every finite
`float64`, and so every finite `float32`, is such a multiple; zero keeps its
sign. -/
inductive Fl where
  | nan
  | inf (neg : Bool)
  | fin (neg : Bool) (k : Nat)
deriving DecidableEq, Repr

/-- A binary format: the number of significand bits `prec`, the smallest
positive value `2^(qmin - 1074)`, and the power `2^(top - 1074)` from which
on a rounded result overflows to an infinity. -/
structure Format where
  prec : Nat
  qmin : Nat
  top : Nat
deriving DecidableEq, Repr

/-- The format of `float32`: 24 bits, smallest value `2^(-149)`, overflow at
`2^128`. -/
def binary32 : Format := { prec := 24, qmin := 925, top := 1202 }

/-- The format of `float64`: 53 bits, smallest value `2^(-1074)`, overflow at
`2^1024`. -/
def binary64 : Format := { prec := 53, qmin := 0, top := 2098 }

/-- The search for an `i` with `n < 2^(2^i)`, upwards from `i`. -/
def log2Bound (n : Nat) : Nat → Nat → Nat
  | 0, i => i
  | fuel + 1, i => if n < 2 ^ (2 ^ i) then i else log2Bound n fuel (i + 1)

/-- The binary search for the leading bit of `n`: `acc` grows by `2^i` when
`2^(acc + 2^i) ≤ n`, for `i` from the bound down to zero. -/
def log2Loop (n : Nat) : Nat → Nat → Nat
  | 0, acc => acc
  | i + 1, acc => log2Loop n i (if 2 ^ (acc + 2 ^ i) ≤ n then acc + 2 ^ i else acc)

/-- The position of the leading bit of `n`, that is `⌊log₂ n⌋`, and zero for
`n = 0`. -/
def log2 (n : Nat) : Nat := log2Loop n (log2Bound n (n + 1) 0) 0

/-- Rounding to nearest, ties to even, into the format `fmt` of the exact
value `(-1)^neg * n * 2^(-1074 - s)`, or of a value slightly greater in
magnitude when `sticky` is set (then `s` is at least 64).  The result is a
multiple of the quantum `2^(qe - 1074)` of the binade of the value, or of the
smallest value of the format. -/
def roundTo (fmt : Format) (neg : Bool) (n s : Nat) (sticky : Bool) : Fl :=
  let qe := max fmt.qmin (log2 n + 1 - (s + fmt.prec))
  let q := n / 2 ^ (s + qe)
  let rem2 := 2 * (n % 2 ^ (s + qe)) + (if sticky then 1 else 0)
  let q1 := if rem2 > 2 ^ (s + qe) ∨ (rem2 = 2 ^ (s + qe) ∧ q % 2 = 1) then q + 1 else q
  if q1 * 2 ^ qe ≥ 2 ^ fmt.top then .inf neg else .fin neg (q1 * 2 ^ qe)

/-- The signed number of units `2^(-1074)` in a finite value. -/
def signedUnits (neg : Bool) (k : Nat) : Int :=
  if neg then -(k : Int) else (k : Int)

/-- The sum `x + y` in the format `fmt`. -/
def Fl.add (fmt : Format) : Fl → Fl → Fl
  | .nan, _ => .nan
  | _, .nan => .nan
  | .inf a, .inf b => if a = b then .inf a else .nan
  | .inf a, .fin _ _ => .inf a
  | .fin _ _, .inf b => .inf b
  | .fin a j, .fin b k =>
    if signedUnits a j + signedUnits b k = 0 then .fin (a && b) 0
    else roundTo fmt (decide (signedUnits a j + signedUnits b k < 0))
      (signedUnits a j + signedUnits b k).natAbs 0 false

/-- The product `x * y` in the format `fmt`. -/
def Fl.mul (fmt : Format) : Fl → Fl → Fl
  | .nan, _ => .nan
  | _, .nan => .nan
  | .inf a, .inf b => .inf (a != b)
  | .inf a, .fin b k => if k = 0 then .nan else .inf (a != b)
  | .fin a j, .inf b => if j = 0 then .nan else .inf (a != b)
  | .fin a j, .fin b k => roundTo fmt (a != b) (j * k) 1074 false

/-- The quotient `x / y` in the format `fmt`: the exact quotient is computed
to more than a thousand bits and what is cut off is kept as sticky bit. -/
def Fl.div (fmt : Format) : Fl → Fl → Fl
  | .nan, _ => .nan
  | _, .nan => .nan
  | .inf _, .inf _ => .nan
  | .inf a, .fin b _ => .inf (a != b)
  | .fin a _, .inf b => .fin (a != b) 0
  | .fin a j, .fin b k =>
    if k = 0 then (if j = 0 then .nan else .inf (a != b))
    else roundTo fmt (a != b) (j * 2 ^ (1139 + log2 k) / k) (65 + log2 k)
      (decide (j * 2 ^ (1139 + log2 k) % k ≠ 0))

/-- The iteration of Newton for the integer square root, downwards from an
`x` above the root: the next value is `(x + n / x) / 2` as long as it is
smaller; `fuel` bounds the number of steps. -/
def isqrtLoop (n : Nat) : Nat → Nat → Nat
  | 0, x => x
  | fuel + 1, x => if (x + n / x) / 2 < x then isqrtLoop n fuel ((x + n / x) / 2) else x

/-- The integer square root `⌊√n⌋`. -/
def isqrt (n : Nat) : Nat := isqrtLoop n (2 ^ (log2 n / 2 + 1)) (2 ^ (log2 n / 2 + 1))

/-- The function `math.Sqrt`, correctly rounded in the format `fmt`: the
integer square root of the value scaled by `2^1202` has more than 600 bits,
and an inexact root sets the sticky bit. -/
def Fl.sqrt (fmt : Format) : Fl → Fl
  | .nan => .nan
  | .inf neg => if neg then .nan else .inf false
  | .fin neg k =>
    if k = 0 then .fin neg 0
    else if neg then .nan
    else roundTo fmt false (isqrt (k * 2 ^ 1202)) 64
      (decide (isqrt (k * 2 ^ 1202) * isqrt (k * 2 ^ 1202) ≠ k * 2 ^ 1202))

/-- The conversion `float32(x)` of a `float64`. -/
def Fl.toFloat32 : Fl → Fl
  | .nan => .nan
  | .inf neg => .inf neg
  | .fin neg k => roundTo binary32 neg k 0 false

/-- The comparison `x > y`: false when either side is NaN, and the two zeros
are equal. -/
def Fl.gt : Fl → Fl → Bool
  | .nan, _ => false
  | _, .nan => false
  | .inf a, .inf b => !a && b
  | .inf a, .fin _ _ => !a
  | .fin _ _, .inf b => b
  | .fin a j, .fin b k => decide (signedUnits b k < signedUnits a j)

/-- The `float32` nearest to the number `i * 2^(-e)`. -/
def Fl.ofScaled (i : Int) (e : Nat) : Fl :=
  roundTo binary32 (decide (i < 0)) (i.natAbs * 2 ^ 1074) e false

/-- The rational number a finite value stands for (zero for the others). -/
def Fl.toRat : Fl → ℚ
  | .fin neg k => signedUnits neg k / 2 ^ 1074
  | _ => 0

/-- The floating-point operations `FindBestDataset` performs on values of type
`F`: the zero value of a `float32` variable, the update `acc += x * y` (which
the Go specification lets an implementation fuse into one rounding), the
conversion `float64(x)`, `math.Sqrt`, the `float64` product, the conversion
`float32(x)`, the `float32` quotient and the comparison `x > y`. -/
structure Arith (F : Type) where
  zero : F
  mulAdd : F → F → F → F
  toFloat64 : F → F
  sqrt : F → F
  mul64 : F → F → F
  toFloat32 : F → F
  div : F → F → F
  gt : F → F → Bool

/-- The IEEE 754 operations, each rounded on its own: `acc += x * y` rounds
the product and then the sum to `float32`. -/
def ieee : Arith Fl where
  zero := .fin false 0
  mulAdd := fun acc x y => Fl.add binary32 acc (Fl.mul binary32 x y)
  toFloat64 := fun x => x
  sqrt := Fl.sqrt binary64
  mul64 := Fl.mul binary64
  toFloat32 := Fl.toFloat32
  div := Fl.div binary32
  gt := Fl.gt

/-- The collaborators of the pipeline: the floating-point unit, the file
system and the `copilot` client package with its two model constants. -/
structure Env (α : Type) where
  arith : Arith α
  ReadDir : String → Except String (List String)
  Open : String → Except String File
  Embeddings : String → String → String → List String → Except String (List (List α))
  ChatCompletions : String → String → ChatCompletionsRequest → Except String Upstream
  ModelEmbeddings : String
  ModelGPT35 : String

/-- A sink (`io.Writer`): given the writes attempted so far and the data of
the next write, the error of that write, or `none` when it succeeds. -/
abbrev Sink := List String → String → Option String

/-! ## Package `embedding` -/

section Embedding

variable {α : Type}

/-- `embedding.Create`: one call of `copilot.Embeddings` with the single input
`content`; the first embedding of the response is returned. -/
def Create (env : Env α) (integrationID apiToken content : String) :
    List Event × Except String (List α) :=
  ([Event.embeddings integrationID apiToken env.ModelEmbeddings [content]],
    match env.Embeddings integrationID apiToken env.ModelEmbeddings [content] with
    | .error e => .error ("error fetching embeddings: " ++ e)
    | .ok (data :: _) => .ok data
    | .ok [] => .error "no embeddings found in response")

/-- `embedding.GenerateDatasets`: the loop over `filenames`.  The error of
`io.ReadAll` is assigned and then overwritten by the result of `Create`, so
it plays no part. -/
def GenerateDatasets (env : Env α) (integrationID apiToken : String) :
    List String → List Event × Except String (List (Dataset α))
  | [] => ([], .ok [])
  | filename :: rest =>
    match env.Open filename with
    | .error e =>
      ([Event.openFile filename], .error ("error reading in file " ++ filename ++ ": " ++ e))
    | .ok file =>
      match Create env integrationID apiToken file.content with
      | (log, .error e) =>
        (Event.openFile filename :: Event.readAll filename :: log,
          .error ("error creating embedding for file " ++ filename ++ ": " ++ e))
      | (log, .ok embedding) =>
        match GenerateDatasets env integrationID apiToken rest with
        | (logRest, .error e) =>
          (Event.openFile filename :: Event.readAll filename :: log ++ logRest, .error e)
        | (logRest, .ok datasets) =>
          (Event.openFile filename :: Event.readAll filename :: log ++ logRest,
            .ok ({ Embedding := embedding, Filename := filename } :: datasets))

/-- The first loop of `FindBestDataset`: the sum of the squares of `target`. -/
def targetMagnitude (A : Arith α) (target : List α) : α :=
  target.foldl (fun acc t => A.mulAdd acc t t) A.zero

/-- The inner loop of `FindBestDataset` over `i < len(target)`, run when both
vectors have the same length: `(docMagnitude, dotProduct)`. -/
def docSums (A : Arith α) (target embedding : List α) : α × α :=
  (target.zip embedding).foldl
    (fun acc te => (A.mulAdd acc.1 te.2 te.2, A.mulAdd acc.2 te.1 te.2)) (A.zero, A.zero)

/-- The score of one entry: `dotProduct` after the division by
`float32(math.Sqrt(float64(targetMagnitude)) * math.Sqrt(float64(docMagnitude)))`. -/
def score (A : Arith α) (target embedding : List α) : α :=
  A.div (docSums A target embedding).2
    (A.toFloat32 (A.mul64 (A.sqrt (A.toFloat64 (targetMagnitude A target)))
      (A.sqrt (A.toFloat64 (docSums A target embedding).1))))

/-- The main loop of `FindBestDataset`, with the loop variables
`bestDataset` and `bestScore` as arguments. -/
def findBestLoop (A : Arith α) (target : List α) :
    List (Dataset α) → Option (Dataset α) → α → Except String (Option (Dataset α))
  | [], bestDataset, _ => .ok bestDataset
  | dataset :: rest, bestDataset, bestScore =>
    if target.length ≠ dataset.Embedding.length then
      .error "embeddings are different length, cannot compare"
    else if A.gt (score A target dataset.Embedding) bestScore then
      findBestLoop A target rest (some dataset) (score A target dataset.Embedding)
    else
      findBestLoop A target rest bestDataset bestScore

/-- `embedding.FindBestDataset`: `bestDataset` starts as nil and `bestScore`
as zero. -/
def FindBestDataset (A : Arith α) (datasets : List (Dataset α)) (target : List α) :
    Except String (Option (Dataset α)) :=
  findBestLoop A target datasets none A.zero

end Embedding

/-! ## Package `agent` -/

/-- An `ecdsa.PublicKey`, as far as the pipeline looks at it. -/
structure PublicKey where
  X : Int
  Y : Int
deriving DecidableEq, Repr

/-- The `asn1Signature` struct of `service.go`. -/
structure asn1Signature where
  R : Int
  S : Int
deriving DecidableEq, Repr

/-- The standard-library functions `validPayload` and `ChatCompletion` call.
`Unmarshal` is `asn1.Unmarshal` into an `asn1Signature`: the parsed value,
the `rest` it returns and its error.  `jsonUnmarshal` is `json.Unmarshal`
into a `*copilot.ChatRequest`, which the JSON value `null` leaves nil. -/
structure StdLib where
  DecodeString : String → Except String Bytes
  Unmarshal : Bytes → asn1Signature × Bytes × Option String
  Sum256 : Bytes → Bytes
  Verify : PublicKey → Bytes → Int → Int → Bool
  jsonUnmarshal : Bytes → Except String (Option ChatRequest)

/-- The function `validPayload`: the boolean and the error it returns. -/
def validPayload (lib : StdLib) (data : Bytes) (sig : String) (publicKey : PublicKey) :
    Bool × Option String :=
  match lib.DecodeString sig with
  | .error err => (false, some err)
  | .ok asnSig =>
    match lib.Unmarshal asnSig with
    | (parsedSig, rest, err) =>
      if err ≠ none ∨ rest.length ≠ 0 then (false, err)
      else (lib.Verify publicKey (lib.Sum256 data) parsedSig.R parsedSig.S, none)

/-- The `Service` struct; `datasetsInit` records whether the `sync.Once` has
already run its function. -/
structure Service (α : Type) where
  pubKey : PublicKey
  datasets : List (Dataset α)
  datasetsInit : Bool
deriving DecidableEq, Repr

/-- The function `NewService`. -/
def NewService {α : Type} (pubKey : PublicKey) : Service α :=
  { pubKey := pubKey, datasets := [], datasetsInit := false }

/-- How a call of `generateCompletion` ends: a nil error, a non-nil error, or
the dereference of a nil request. -/
inductive Result where
  | ok
  | error (msg : String)
  | nilDeref
deriving DecidableEq, Repr

/-- What a call leaves behind: the service, the calls made, the result. -/
structure Outcome (α : Type) where
  service : Service α
  log : List Event
  result : Result

/-- The fixed text that precedes the document in the system message. -/
def preamble : String :=
  "You are a helpful assistant that replies to user messages.  Use the following context when responding to a message.\n" ++
    "Context: "

section Agent

variable {α : Type}

/-- The call `s.datasetsInit.Do(func() ...)` of `generateCompletion`: the
service afterwards, the calls made, and the value of the local `err`.  When
the `Once` has already run, the function is skipped and `err` stays nil. -/
def datasetsInitDo (env : Env α) (integrationID apiToken : String) (s : Service α) :
    Service α × List Event × Option String :=
  if s.datasetsInit then (s, [], none)
  else
    match env.ReadDir "data" with
    | .error e =>
      ({ s with datasetsInit := true }, [Event.readDir "data"],
        some ("error reading files from \"data\" directory: " ++ e))
    | .ok files =>
      match GenerateDatasets env integrationID apiToken (files.map (fun name => "data/" ++ name)) with
      | (log, .error e) =>
        ({ s with datasets := [], datasetsInit := true }, Event.readDir "data" :: log,
          some ("error generating datasets: " ++ e))
      | (log, .ok datasets) =>
        ({ s with datasets := datasets, datasetsInit := true }, Event.readDir "data" :: log, none)

/-- The write loop of `generateCompletion` over the scanned lines; `done` holds
the writes attempted so far.  Returns all writes attempted and the error the
loop returns, if it returns one. -/
def forwardLoop (w : Sink) : List String → List String → List String × Option String
  | [], done => (done, none)
  | buf :: rest, done =>
    match w done buf with
    | some e => (done ++ [buf], some ("failed to write to stream: " ++ e))
    | none =>
      match w (done ++ [buf]) "\n" with
      | some e => (done ++ [buf, "\n"], some ("failed to write delimiter to stream: " ++ e))
      | none => forwardLoop w rest (done ++ [buf, "\n"])

/-- The scanner loop of `generateCompletion` followed by the check of
`reader.Err()`: the writes attempted and the result. -/
def forwardStream (w : Sink) (stream : Upstream) : List String × Result :=
  match forwardLoop w stream.lines [] with
  | (writes, some e) => (writes, .error e)
  | (writes, none) =>
    match stream.err with
    | none => (writes, .ok)
    | some err =>
      if err.isEOF then (writes, .ok)
      else (writes, .error ("failed to read from stream: " ++ err.msg))

/-- The body of the message loop of `generateCompletion` from
`embedding.Create` on, for a message that passed both filters: the calls made
and either the error returned or the value of `messages` at the `break`. -/
def retrieveContext (env : Env α) (datasets : List (Dataset α))
    (integrationID apiToken content : String) :
    List Event × Except String (List ChatMessage) :=
  match Create env integrationID apiToken content with
  | (log, .error e) => (log, .error ("error creating embedding for user message: " ++ e))
  | (log, .ok emb) =>
    match FindBestDataset env.arith datasets emb with
    | .error _ => (log ++ [Event.findBestDataset], .error "error computing best dataset")
    | .ok none => (log ++ [Event.findBestDataset], .ok [])
    | .ok (some dataset) =>
      match env.Open dataset.Filename with
      | .error e =>
        (log ++ [Event.findBestDataset, Event.openFile dataset.Filename],
          .error ("failed to open documents: " ++ e))
      | .ok file =>
        match file.readErr with
        | some e =>
          (log ++ [Event.findBestDataset, Event.openFile dataset.Filename,
              Event.readAll dataset.Filename],
            .error ("failed to read documents: " ++ e))
        | none =>
          (log ++ [Event.findBestDataset, Event.openFile dataset.Filename,
              Event.readAll dataset.Filename],
            .ok [{ Role := "system", Content := preamble ++ file.content }])

/-- The loop `for i := len(req.Messages) - 1; i >= 0; i--` of
`generateCompletion`, over the messages from newest to oldest: the calls made
and either the error returned from inside the loop or the value of `messages`
when the loop is left. -/
def augmentLoop (env : Env α) (datasets : List (Dataset α)) (integrationID apiToken : String) :
    List ChatMessage → List Event × Except String (List ChatMessage)
  | [] => ([], .ok [])
  | msg :: older =>
    if msg.Role ≠ "user" then augmentLoop env datasets integrationID apiToken older
    else if msg.Content = "" then augmentLoop env datasets integrationID apiToken older
    else retrieveContext env datasets integrationID apiToken msg.Content

/-- The method `Service.generateCompletion`. -/
def generateCompletion (env : Env α) (w : Sink) (integrationID apiToken : String)
    (s : Service α) (req : Option ChatRequest) : Outcome α :=
  match datasetsInitDo env integrationID apiToken s with
  | (s1, log0, some err) => { service := s1, log := log0, result := .error err }
  | (s1, log0, none) =>
    match req with
    | none => { service := s1, log := log0, result := .nilDeref }
    | some req =>
      match augmentLoop env s1.datasets integrationID apiToken req.Messages.reverse with
      | (log1, .error e) => { service := s1, log := log0 ++ log1, result := .error e }
      | (log1, .ok messages) =>
        match env.ChatCompletions "copilot-chat" apiToken
            { Model := env.ModelGPT35, Messages := messages ++ req.Messages, Stream := true } with
        | .error e =>
          { service := s1,
            log := log0 ++ log1 ++ [Event.chatCompletions "copilot-chat" apiToken
              { Model := env.ModelGPT35, Messages := messages ++ req.Messages, Stream := true }],
            result := .error ("failed to get chat completions stream: " ++ e) }
        | .ok stream =>
          { service := s1,
            log := log0 ++ log1 ++ [Event.chatCompletions "copilot-chat" apiToken
                { Model := env.ModelGPT35, Messages := messages ++ req.Messages, Stream := true }]
              ++ (forwardStream w stream).1.map Event.write ++ [Event.closeStream],
            result := (forwardStream w stream).2 }

/-- An inbound HTTP request as `ChatCompletion` reads it: three headers and
the result of `io.ReadAll(r.Body)`. -/
structure Request where
  Signature : String
  Token : String
  IntegrationID : String
  Body : Except String Bytes

/-- What `ChatCompletion` leaves behind: the service, the calls made (the
response is the `writeHeader` and `write` events among them), and whether the
handler ended in a nil dereference. -/
structure Handled (α : Type) where
  service : Service α
  log : List Event
  crashed : Bool

/-- The method `Service.ChatCompletion`. -/
def ChatCompletion (env : Env α) (lib : StdLib) (w : Sink) (s : Service α) (r : Request) :
    Handled α :=
  match r.Body with
  | .error _ => { service := s, log := [Event.writeHeader 500], crashed := false }
  | .ok body =>
    match validPayload lib body r.Signature s.pubKey with
    | (_, some _) => { service := s, log := [Event.writeHeader 500], crashed := false }
    | (false, none) =>
      { service := s,
        log := [Event.writeHeader 401, Event.write "invalid payload signature\n"],
        crashed := false }
    | (true, none) =>
      match lib.jsonUnmarshal body with
      | .error _ => { service := s, log := [Event.writeHeader 400], crashed := false }
      | .ok req =>
        match generateCompletion env w r.IntegrationID r.Token s req with
        | { service := s1, log := log, result := .ok } =>
          { service := s1, log := log, crashed := false }
        | { service := s1, log := log, result := .error _ } =>
          { service := s1, log := log ++ [Event.writeHeader 500], crashed := false }
        | { service := s1, log := log, result := .nilDeref } =>
          { service := s1, log := log, crashed := true }

end Agent

/-! ## A concrete standard library

The decoders below follow the Go standard library on the inputs
`validPayload` gives them; they serve to evaluate the code on concrete
requests.  An error carries the fixed part of the message of Go, without the
input position or the type details that Go appends to it. -/

/-- The value of a character in the standard base64 alphabet. -/
def base64Value (c : Char) : Option Nat :=
  if 65 ≤ c.toNat ∧ c.toNat ≤ 90 then some (c.toNat - 65)
  else if 97 ≤ c.toNat ∧ c.toNat ≤ 122 then some (c.toNat - 97 + 26)
  else if 48 ≤ c.toNat ∧ c.toNat ≤ 57 then some (c.toNat - 48 + 52)
  else if c.toNat = 43 then some 62
  else if c.toNat = 47 then some 63
  else none

/-- Decoding of the quanta of a padded base64 text, four characters at a
time; padding is accepted in the last quantum only. -/
def decodeQuanta : List Char → Except String Bytes
  | [] => .ok []
  | a :: b :: c :: d :: rest =>
    match base64Value a, base64Value b, base64Value c, base64Value d with
    | some va, some vb, some vc, some vd =>
      match decodeQuanta rest with
      | .error e => .error e
      | .ok bytes =>
        .ok ((va * 4 + vb / 16) % 256 :: (vb * 16 + vc / 4) % 256 :: (vc * 64 + vd) % 256 :: bytes)
    | some va, some vb, some vc, none =>
      if d.toNat = 61 ∧ rest = [] then
        .ok [(va * 4 + vb / 16) % 256, (vb * 16 + vc / 4) % 256]
      else .error "illegal base64 data"
    | some va, some vb, none, _ =>
      if c.toNat = 61 ∧ d.toNat = 61 ∧ rest = [] then .ok [(va * 4 + vb / 16) % 256]
      else .error "illegal base64 data"
    | _, _, _, _ => .error "illegal base64 data"
  | _ => .error "illegal base64 data"

/-- The function `base64.StdEncoding.DecodeString`: carriage returns and line
feeds are skipped, the rest is decoded quantum by quantum. -/
def stdDecodeString (s : String) : Except String Bytes :=
  decodeQuanta (s.toList.filter (fun c => c.toNat ≠ 13 ∧ c.toNat ≠ 10))

/-- The bytes of a long-form DER length, most significant first. -/
def readLongLength : Nat → Bytes → Nat → Except String (Nat × Bytes)
  | 0, bytes, acc =>
    if acc < 128 then .error "asn1: structure error: non-minimal length" else .ok (acc, bytes)
  | _ + 1, [], _ => .error "asn1: syntax error: truncated tag or length"
  | n + 1, b :: rest, acc =>
    if acc ≥ 2 ^ 23 then .error "asn1: structure error: length too large"
    else if acc * 256 + b = 0 then
      .error "asn1: syntax error: superfluous leading zeros in length"
    else readLongLength n rest (acc * 256 + b)

/-- A DER length: the length and the bytes after it. -/
def parseLength : Bytes → Except String (Nat × Bytes)
  | [] => .error "asn1: syntax error: truncated tag or length"
  | b :: rest =>
    if b < 128 then .ok (b, rest)
    else if b % 128 = 0 then .error "asn1: syntax error: indefinite length found (not DER)"
    else readLongLength (b % 128) rest 0

/-- The check `checkInteger` of `encoding/asn1`: non-empty and minimal. -/
def checkInteger : Bytes → Option String
  | [] => some "asn1: structure error: empty integer"
  | [_] => none
  | b0 :: b1 :: _ =>
    if (b0 = 0 ∧ b1 < 128) ∨ (b0 = 255 ∧ b1 ≥ 128) then
      some "asn1: structure error: integer not minimally-encoded"
    else none

/-- The integer a big-endian two's-complement byte string stands for. -/
def bigIntValue (bytes : Bytes) : Int :=
  if bytes.headD 0 ≥ 128 then
    (bytes.foldl (fun acc b => acc * 256 + b) 0 : Nat) - (256 ^ bytes.length : Nat)
  else (bytes.foldl (fun acc b => acc * 256 + b) 0 : Nat)

/-- One `*big.Int` field of a struct: an INTEGER element and the bytes after it. -/
def parseBigIntField : Bytes → Except String (Int × Bytes)
  | [] => .error "asn1: syntax error: sequence truncated"
  | tag :: rest =>
    if tag ≠ 2 then .error "asn1: structure error: tags don't match"
    else
      match parseLength rest with
      | .error e => .error e
      | .ok (len, body) =>
        if len > body.length then .error "asn1: syntax error: data truncated"
        else
          match checkInteger (body.take len) with
          | some e => .error e
          | none => .ok (bigIntValue (body.take len), body.drop len)

/-- The function `asn1.Unmarshal` into an `asn1Signature`: a SEQUENCE whose
first two elements are INTEGERs; further elements inside the SEQUENCE are
accepted, bytes after it are returned as `rest`. -/
def unmarshalSignature : Bytes → asn1Signature × Bytes × Option String
  | [] => ({ R := 0, S := 0 }, [], some "asn1: syntax error: sequence truncated")
  | tag :: afterTag =>
    if tag ≠ 48 then ({ R := 0, S := 0 }, [], some "asn1: structure error: tags don't match")
    else
      match parseLength afterTag with
      | .error e => ({ R := 0, S := 0 }, [], some e)
      | .ok (len, body) =>
        if len > body.length then
          ({ R := 0, S := 0 }, [], some "asn1: syntax error: data truncated")
        else
          match parseBigIntField (body.take len) with
          | .error e => ({ R := 0, S := 0 }, [], some e)
          | .ok (r, afterR) =>
            match parseBigIntField afterR with
            | .error e => ({ R := r, S := 0 }, [], some e)
            | .ok (s, _) => ({ R := r, S := s }, body.drop len, none)

/-- A library for concrete evaluations: the decoders above, the identity in
place of the digest, a check that accepts exactly `(R, S) = (X, Y)` in place
of ECDSA verification, and a JSON decoder that rejects every body. -/
def sampleLib : StdLib where
  DecodeString := stdDecodeString
  Unmarshal := unmarshalSignature
  Sum256 := fun data => data
  Verify := fun key _ r s => decide (r = key.X ∧ s = key.Y)
  jsonUnmarshal := fun _ => .error "unexpected end of JSON input"

/-! ## Vocabulary of the statements -/

/-- Equality of results is decidable, so that concrete runs can be evaluated. -/
instance instDecidableEqExcept {ε α : Type} [DecidableEq ε] [DecidableEq α] :
    DecidableEq (Except ε α)
  | .ok a, .ok b =>
    if h : a = b then isTrue (by rw [h]) else isFalse (by intro h2; cases h2; exact h rfl)
  | .error a, .error b =>
    if h : a = b then isTrue (by rw [h]) else isFalse (by intro h2; cases h2; exact h rfl)
  | .ok _, .error _ => isFalse (by intro h; cases h)
  | .error _, .ok _ => isFalse (by intro h; cases h)


/-- The dot product of two vectors. -/
def dot {α : Type} [LinearOrderedField α] (a b : List α) : α :=
  (List.zipWith (fun x y => x * y) a b).sum

/-- The squared magnitude of a vector; its magnitude is the square root of it. -/
def normSq {α : Type} [LinearOrderedField α] (a : List α) : α :=
  (a.map (fun x => x * x)).sum

/-- Cosine similarity as the specification writes it:
`dot(query, entry) / (‖query‖ · ‖entry‖)`. -/
def cosineSimilarity {α : Type} [LinearOrderedField α] (sqrt : α → α) (query entry : List α) : α :=
  dot query entry / (sqrt (normSq query) * sqrt (normSq entry))

/-- Whether an event is a call of `copilot.Embeddings`. -/
def isEmbeddingsCall : Event → Bool
  | .embeddings _ _ _ _ => true
  | _ => false

/-- The sequence `l1, "\n", l2, "\n", ..., ln, "\n"` for the lines `l1..ln`. -/
def framedLines : List String → List String
  | [] => []
  | l :: rest => l :: "\n" :: framedLines rest

/-- Every write of `writes` succeeds on the sink `w`, each one made after
`done` and the writes before it. -/
def allWritesSucceed (w : Sink) (done writes : List String) : Prop :=
  ∀ before x after, writes = before ++ x :: after → w (done ++ before) x = none

/-! ## Concrete collaborators -/

/-- The `float32` value 1. -/
def one : Fl := Fl.ofScaled 1 0

/-- The `float32` value -1. -/
def minusOne : Fl := Fl.ofScaled (-1) 0

/-- An entry with the embedding `[1]`. -/
def entryA : Dataset Fl := { Embedding := [one], Filename := "data/a" }

/-- A second entry with the embedding `[1]`. -/
def entryB : Dataset Fl := { Embedding := [one], Filename := "data/b" }

/-- An entry with the embedding `[-1]`. -/
def entryNeg : Dataset Fl := { Embedding := [minusOne], Filename := "data/n" }

/-- An entry with the zero vector as embedding. -/
def entryZero : Dataset Fl := { Embedding := [Fl.fin false 0], Filename := "data/z" }

/-- A working environment: IEEE arithmetic, one document `data/go.md`, an
embedding provider that answers every text with the vector `[1]`, a
completion provider that streams two lines. -/
def sampleEnv : Env Fl where
  arith := ieee
  ReadDir := fun _ => .ok ["go.md"]
  Open := fun name =>
    if name = "data/go.md" then .ok { content := "Go is a language.", readErr := none }
    else .error "no such file or directory"
  Embeddings := fun _ _ _ _ => .ok [[one]]
  ChatCompletions := fun _ _ _ => .ok { lines := ["data: Hi", "data: [DONE]"], err := none }
  ModelEmbeddings := "text-embedding-ada-002"
  ModelGPT35 := "gpt-3.5-turbo"

/-- The working environment without its `data` directory. -/
def noDataEnv : Env Fl :=
  { sampleEnv with ReadDir := fun _ => .error "open data: no such file or directory" }

/-- The working environment with a `data/go.md` whose read breaks off after
the first two bytes. -/
def shortReadEnv : Env Fl :=
  { sampleEnv with
    Open := fun _ =>
      .ok { content := "Go", readErr := some "read data/go.md: input/output error" } }

/-- The request of the running example: an empty user message, a user message
and an assistant reply. -/
def sampleRequest : ChatRequest :=
  { Messages := [{ Role := "user", Content := "" }, { Role := "user", Content := "hello" },
      { Role := "assistant", Content := "hi" }] }

/-- The message list the completion provider receives for `sampleRequest` in
the working environment. -/
def sampleOutgoing : ChatCompletionsRequest :=
  { Model := "gpt-3.5-turbo",
    Messages := { Role := "system", Content := preamble ++ "Go is a language." } ::
      sampleRequest.Messages,
    Stream := true }

/-- A sink that accepts every write. -/
def okSink : Sink := fun _ _ => none

/-- A sink on which the third write, and every later one, fails. -/
def brokenSink : Sink := fun done _ => if done.length < 2 then none else some "broken pipe"


/-! ## The integer helpers of the rounding -/

/-- The search ends at an `i` with `n < 2^(2^i)`, when the fuel suffices for
one. -/
theorem log2Bound_spec (n : Nat) : ∀ fuel i, n < 2 ^ (2 ^ (i + fuel)) →
    n < 2 ^ (2 ^ (log2Bound n fuel i)) := by
  intro fuel
  induction fuel with
  | zero => intro i h; simpa [log2Bound] using h
  | succ fuel ih =>
    intro i h
    unfold log2Bound
    split_ifs with hlt
    · exact hlt
    · apply ih
      have : i + 1 + fuel = i + (fuel + 1) := by omega
      rw [this]
      exact h

/-- The binary search keeps `2^acc ≤ n < 2^(acc + 2^i)`. -/
theorem log2Loop_spec (n : Nat) : ∀ i acc, 2 ^ acc ≤ n → n < 2 ^ (acc + 2 ^ i) →
    2 ^ (log2Loop n i acc) ≤ n ∧ n < 2 ^ (log2Loop n i acc + 1) := by
  intro i
  induction i with
  | zero => intro acc h1 h2; simpa [log2Loop] using ⟨h1, h2⟩
  | succ i ih =>
    intro acc h1 h2
    unfold log2Loop
    split_ifs with hle
    · apply ih _ hle
      have : acc + 2 ^ i + 2 ^ i = acc + 2 ^ (i + 1) := by ring
      rw [this]
      exact h2
    · exact ih _ h1 (not_le.mp hle)

/-- The function `log2` is the binary logarithm of the library. -/
theorem log2_eq (n : Nat) : log2 n = Nat.log2 n := by
  rcases Nat.eq_zero_or_pos n with rfl | hpos
  · simp [log2, log2Bound, log2Loop]
  · have hb : n < 2 ^ (2 ^ (log2Bound n (n + 1) 0)) := by
      apply log2Bound_spec
      calc n < 2 ^ n := Nat.lt_two_pow n
        _ ≤ 2 ^ (2 ^ (0 + (n + 1))) := by
          apply Nat.pow_le_pow_right (by norm_num)
          exact le_of_lt (lt_of_lt_of_le (Nat.lt_succ_self n) (le_of_lt (by simpa using Nat.lt_two_pow (n + 1))))
    have h := log2Loop_spec n (log2Bound n (n + 1) 0) 0 (by simpa using hpos) (by simpa using hb)
    rw [Nat.log2_eq_log_two]
    symm
    rw [Nat.log_eq_iff (Or.inr ⟨by norm_num, by omega⟩)]
    exact h

/-- The iteration of Newton, started at or above the root with enough fuel,
ends at the root. -/
theorem isqrtLoop_spec (n : Nat) : ∀ fuel x, Nat.sqrt n ≤ x → x ≤ Nat.sqrt n + fuel →
    isqrtLoop n fuel x = Nat.sqrt n := by
  intro fuel
  induction fuel with
  | zero => intro x h1 h2; simp [isqrtLoop]; omega
  | succ fuel ih =>
    intro x h1 h2
    unfold isqrtLoop
    split_ifs with hlt
    · apply ih
      · -- AM-GM
        have hx : 0 < x := by
          rcases Nat.eq_zero_or_pos x with rfl | h
          · simp at hlt
          · exact h
        have hs : Nat.sqrt n * Nat.sqrt n ≤ n := Nat.sqrt_le n
        rw [Nat.le_div_iff_mul_le (by norm_num)]
        by_cases hbig : 2 * Nat.sqrt n ≤ x
        · have := Nat.zero_le (n / x)
          omega
        · have h3 : (2 * Nat.sqrt n - x) * x ≤ n := by
            have : (2 * Nat.sqrt n - x) * x ≤ Nat.sqrt n * Nat.sqrt n := by
              obtain ⟨d, hd⟩ : ∃ d, x = Nat.sqrt n + d := ⟨x - Nat.sqrt n, by omega⟩
              have hd2 : 2 * Nat.sqrt n - x = Nat.sqrt n - d := by omega
              rw [hd2, hd]
              have hdle : d ≤ Nat.sqrt n := by omega
              obtain ⟨e, he⟩ : ∃ e, Nat.sqrt n = d + e := ⟨Nat.sqrt n - d, by omega⟩
              rw [he]
              have : d + e - d = e := by omega
              rw [this]
              nlinarith
            exact le_trans this hs
          have h4 : 2 * Nat.sqrt n - x ≤ n / x := (Nat.le_div_iff_mul_le hx).mpr h3
          omega
      · omega
    · -- exit
      have hge : x ≤ (x + n / x) / 2 := not_lt.mp hlt
      have h5 : x ≤ n / x := by
        have := (Nat.le_div_iff_mul_le (by norm_num : 0 < 2)).mp hge
        omega
      rcases Nat.eq_zero_or_pos x with rfl | hx
      · omega
      · have h6 : x * x ≤ n := (Nat.le_div_iff_mul_le hx).mp h5
        have : x ≤ Nat.sqrt n := Nat.le_sqrt.mpr h6
        omega

/-- The function `isqrt` is the integer square root of the library. -/
theorem isqrt_eq (n : Nat) : isqrt n = Nat.sqrt n := by
  unfold isqrt
  apply isqrtLoop_spec
  · rw [log2_eq]
    have h1 : n < 2 ^ (Nat.log2 n + 1) := Nat.lt_log2_self
    apply le_of_lt
    rw [Nat.sqrt_lt]
    calc n < 2 ^ (Nat.log2 n + 1) := h1
      _ ≤ 2 ^ (Nat.log2 n / 2 + 1) * 2 ^ (Nat.log2 n / 2 + 1) := by
        rw [← pow_add]
        apply Nat.pow_le_pow_right (by norm_num)
        omega
  · omega

/-- Known values of IEEE arithmetic: `1/3` in `float32` is `11184811 * 2^(-25)`;
`math.Sqrt(2)` is `6369051672525773 * 2^(-52)` and its conversion to `float32`
is `11863283 * 2^(-23)`; `2^24 + 1` is a tie and rounds to the even `2^24`,
`2^24 + 3` to `2^24 + 4`; `2^(-150)` rounds to zero and `3 * 2^(-150)` to
`2^(-148)`; `2^100 * 2^100` overflows to `+Inf`; `0/0` is NaN and `1/0` is
`+Inf`. -/
theorem ieee_known_values :
    Fl.div binary32 (Fl.ofScaled 1 0) (Fl.ofScaled 3 0) = Fl.ofScaled 11184811 25 ∧
    Fl.sqrt binary64 (Fl.ofScaled 2 0) = Fl.fin false (6369051672525773 * 2 ^ 1022) ∧
    Fl.toFloat32 (Fl.sqrt binary64 (Fl.ofScaled 2 0)) = Fl.ofScaled 11863283 23 ∧
    Fl.add binary32 (Fl.ofScaled 16777216 0) (Fl.ofScaled 1 0) = Fl.ofScaled 16777216 0 ∧
    Fl.add binary32 (Fl.ofScaled 16777216 0) (Fl.ofScaled 3 0) = Fl.ofScaled 16777220 0 ∧
    Fl.ofScaled 1 150 = Fl.fin false 0 ∧
    Fl.ofScaled 3 150 = Fl.ofScaled 1 148 ∧
    Fl.mul binary32 (Fl.ofScaled (2 ^ 100) 0) (Fl.ofScaled (2 ^ 100) 0) = Fl.inf false ∧
    Fl.div binary32 (Fl.fin false 0) (Fl.fin false 0) = Fl.nan ∧
    Fl.div binary32 (Fl.ofScaled 1 0) (Fl.fin false 0) = Fl.inf false := by
  decide!

/-- The number a non-negative finite value of `m * 2^1074` units stands for
is `m`. -/
theorem Fl.toRat_of_units (m : Nat) : Fl.toRat (Fl.fin false (m * 2 ^ 1074)) = m := by
  have h : ((2 : ℚ) ^ 1074) ≠ 0 := pow_ne_zero _ (by norm_num)
  show ((signedUnits false (m * 2 ^ 1074) : ℤ) : ℚ) / 2 ^ 1074 = m
  have hs : signedUnits false (m * 2 ^ 1074) = ((m * 2 ^ 1074 : ℕ) : ℤ) := rfl
  rw [hs, Int.cast_natCast, Nat.cast_mul, Nat.cast_pow, Nat.cast_ofNat]
  exact mul_div_cancel_right₀ _ h

/-! ## The order of floating-point values -/

/-- The comparison `>` is transitive. -/
theorem Fl.gt_trans (a b c : Fl) (h1 : Fl.gt c b = true) (h2 : Fl.gt b a = true) :
    Fl.gt c a = true := by
  cases a <;> cases b <;> cases c <;> simp_all [Fl.gt, signedUnits]
  all_goals split_ifs at * <;> omega

/-- A value that does not exceed `b` is NaN or lies below everything above `b`. -/
theorem Fl.gt_of_gt_of_not_gt (a b c : Fl) (h1 : Fl.gt c b = true) (h2 : Fl.gt a b = false) :
    a = Fl.nan ∨ Fl.gt c a = true := by
  cases a <;> cases b <;> cases c <;> simp_all [Fl.gt, signedUnits]
  all_goals split_ifs at * <;> omega

/-- The comparison `>` is asymmetric. -/
theorem Fl.gt_asymm (a b : Fl) (h : Fl.gt a b = true) : Fl.gt b a = false := by
  cases a <;> cases b <;> simp_all [Fl.gt, signedUnits]
  all_goals split_ifs at * <;> omega

/-- Nothing exceeds itself. -/
theorem Fl.gt_irrefl (a : Fl) : Fl.gt a a = false := by
  cases a <;> simp [Fl.gt]

/-! ## Retrieval: `FindBestDataset` -/

section Retrieval

variable {α : Type}

/-- The loop returns an error exactly when some entry has another length than
`target`, whatever the loop variables hold. -/
theorem findBestLoop_error_iff (A : Arith α) (target : List α) (datasets : List (Dataset α)) :
    ∀ (best : Option (Dataset α)) (bestScore : α),
      (∃ msg, findBestLoop A target datasets best bestScore = .error msg) ↔
        ∃ d ∈ datasets, d.Embedding.length ≠ target.length := by
  induction datasets with
  | nil => intro best bestScore; simp [findBestLoop]
  | cons d rest ih =>
    intro best bestScore
    by_cases hlen : target.length = d.Embedding.length
    · by_cases hgt : A.gt (score A target d.Embedding) bestScore = true
      · simp [findBestLoop, hlen, hgt, ih]
      · simp [findBestLoop, hlen, hgt, ih]
    · have hlen2 : ¬ d.Embedding.length = target.length := fun h => hlen h.symm
      simp [findBestLoop, hlen, hlen2]

/-- The loop invariant at exit, for a comparison that is transitive and under
which a value not exceeding `b` is `unordered` or below everything above `b`:
either no entry beat `bestScore`, or the result is an entry that beat it,
every entry before it is unordered or strictly below it, and no entry after
it exceeds it. -/
theorem findBestLoop_ok (A : Arith α) (unordered : α → Prop)
    (htrans : ∀ a b c, A.gt c b = true → A.gt b a = true → A.gt c a = true)
    (hweak : ∀ a b c, A.gt c b = true → A.gt a b = false → unordered a ∨ A.gt c a = true)
    (target : List α) (datasets : List (Dataset α)) :
    ∀ (best : Option (Dataset α)) (bestScore : α) (r : Option (Dataset α)),
      findBestLoop A target datasets best bestScore = .ok r →
        (r = best ∧ ∀ d ∈ datasets, A.gt (score A target d.Embedding) bestScore = false) ∨
        ∃ pre d post, datasets = pre ++ d :: post ∧ r = some d ∧
          A.gt (score A target d.Embedding) bestScore = true ∧
          (∀ x ∈ pre, unordered (score A target x.Embedding) ∨
            A.gt (score A target d.Embedding) (score A target x.Embedding) = true) ∧
          (∀ x ∈ post,
            A.gt (score A target x.Embedding) (score A target d.Embedding) = false) := by
  induction datasets with
  | nil =>
    intro best bestScore r h
    simp [findBestLoop] at h
    left; simp [h]
  | cons d rest ih =>
    intro best bestScore r h
    by_cases hlen : target.length = d.Embedding.length
    · by_cases hgt : A.gt (score A target d.Embedding) bestScore = true
      · simp only [findBestLoop, hlen, hgt, ne_eq, not_true_eq_false, if_false, if_true] at h
        rcases ih _ _ _ h with ⟨hr, hall⟩ | ⟨pre, d', post, hsplit, hr, hlt, hpre, hpost⟩
        · right
          exact ⟨[], d, rest, rfl, hr, hgt, by simp, hall⟩
        · right
          refine ⟨d :: pre, d', post, by simp [hsplit], hr, htrans _ _ _ hlt hgt, ?_, hpost⟩
          intro x hx
          rcases List.mem_cons.mp hx with rfl | hx
          · exact Or.inr hlt
          · exact hpre x hx
      · have hle : A.gt (score A target d.Embedding) bestScore = false := by
          simpa using hgt
        simp only [findBestLoop, hlen, hle, ne_eq, not_true_eq_false, if_false,
          Bool.false_eq_true] at h
        rcases ih _ _ _ h with ⟨hr, hall⟩ | ⟨pre, d', post, hsplit, hr, hlt, hpre, hpost⟩
        · left
          refine ⟨hr, ?_⟩
          intro x hx
          rcases List.mem_cons.mp hx with rfl | hx
          · exact hle
          · exact hall x hx
        · right
          refine ⟨d :: pre, d', post, by simp [hsplit], hr, hlt, ?_, hpost⟩
          intro x hx
          rcases List.mem_cons.mp hx with rfl | hx
          · exact hweak _ _ _ hlt hle
          · exact hpre x hx
    · simp [findBestLoop, hlen] at h

/-- Claim C5: `FindBestDataset` returns an error exactly when some corpus
entry, at whatever position, has an embedding whose length differs from the
query's; on the empty corpus it returns no entry and no error.  This holds
for every floating-point arithmetic. -/
theorem FindBestDataset_error_iff_length_mismatch (A : Arith α) (datasets : List (Dataset α))
    (target : List α) :
    ((∃ msg, FindBestDataset A datasets target = .error msg) ↔
        ∃ d ∈ datasets, d.Embedding.length ≠ target.length) ∧
      FindBestDataset A ([] : List (Dataset α)) target = .ok none :=
  ⟨findBestLoop_error_iff A target datasets none A.zero, rfl⟩

end Retrieval

/-- The result of `FindBestDataset` in IEEE arithmetic, when it is an entry:
the corpus splits at that entry, its score exceeds zero, every entry before it
has a score that is NaN or strictly lower, and no entry after it has a
greater score. -/
theorem FindBestDataset_ieee_some (datasets : List (Dataset Fl)) (target : List Fl)
    (best : Dataset Fl) (h : FindBestDataset ieee datasets target = .ok (some best)) :
    ∃ pre post, datasets = pre ++ best :: post ∧
      Fl.gt (score ieee target best.Embedding) (Fl.fin false 0) = true ∧
      (∀ x ∈ pre, score ieee target x.Embedding = Fl.nan ∨
        Fl.gt (score ieee target best.Embedding) (score ieee target x.Embedding) = true) ∧
      (∀ x ∈ post,
        Fl.gt (score ieee target x.Embedding) (score ieee target best.Embedding) = false) := by
  rcases findBestLoop_ok ieee (fun x => x = Fl.nan) Fl.gt_trans Fl.gt_of_gt_of_not_gt target
      datasets none ieee.zero _ h with ⟨hr, _⟩ | ⟨pre, d, post, hsplit, hr, hpos, hpre, hpost⟩
  · cases hr
  · cases hr
    exact ⟨pre, post, hsplit, hpos, hpre, hpost⟩

/-- The result of `FindBestDataset` in IEEE arithmetic, when it is nil: no
entry has a score above zero. -/
theorem FindBestDataset_ieee_none (datasets : List (Dataset Fl)) (target : List Fl)
    (h : FindBestDataset ieee datasets target = .ok none) :
    ∀ d ∈ datasets, Fl.gt (score ieee target d.Embedding) (Fl.fin false 0) = false := by
  rcases findBestLoop_ok ieee (fun x => x = Fl.nan) Fl.gt_trans Fl.gt_of_gt_of_not_gt target
      datasets none ieee.zero _ h with ⟨_, hall⟩ | ⟨pre, d, post, _, hr, _, _, _⟩
  · exact hall
  · cases hr

/-- Claim C4, amended: when `FindBestDataset` returns an entry, the corpus
splits at an occurrence of that entry such that every entry before it has a
computed `float32` score that is NaN or strictly lower, and no entry after it
has a greater computed score: of several entries with the top computed score
the first is returned. -/
theorem FindBestDataset_first_of_equal_scores (datasets : List (Dataset Fl)) (target : List Fl)
    (best : Dataset Fl) (h : FindBestDataset ieee datasets target = .ok (some best)) :
    ∃ pre post, datasets = pre ++ best :: post ∧
      (∀ x ∈ pre, score ieee target x.Embedding = Fl.nan ∨
        Fl.gt (score ieee target best.Embedding) (score ieee target x.Embedding) = true) ∧
      (∀ x ∈ post,
        Fl.gt (score ieee target x.Embedding) (score ieee target best.Embedding) = false) := by
  obtain ⟨pre, post, hsplit, _, hpre, hpost⟩ := FindBestDataset_ieee_some datasets target best h
  exact ⟨pre, post, hsplit, hpre, hpost⟩

/-- Two entries with the same computed score: the first one is returned. -/
theorem FindBestDataset_first_of_equal_scores_witness :
    FindBestDataset ieee [entryA, entryB] [one] = .ok (some entryA) ∧
      ∃ pre post, [entryA, entryB] = pre ++ entryA :: post ∧
        (∀ x ∈ pre, score ieee [one] x.Embedding = Fl.nan ∨
          Fl.gt (score ieee [one] entryA.Embedding) (score ieee [one] x.Embedding) = true) ∧
        (∀ x ∈ post,
          Fl.gt (score ieee [one] x.Embedding) (score ieee [one] entryA.Embedding) = false) :=
  ⟨by decide!, FindBestDataset_first_of_equal_scores [entryA, entryB] [one] entryA (by decide!)⟩

/-- A corpus of the query's dimension in which the entry before the returned
one is the zero vector: its score is `0/0`, a NaN, which is not lower than
the score 1 of the returned entry. -/
theorem FindBestDataset_predecessor_nan :
    (∀ d ∈ [entryZero, entryB], d.Embedding.length = [one].length) ∧
    FindBestDataset ieee [entryZero, entryB] [one] = .ok (some entryB) ∧
    score ieee [one] entryZero.Embedding = Fl.nan ∧
    score ieee [one] entryB.Embedding = one ∧
    Fl.gt (score ieee [one] entryB.Embedding) (score ieee [one] entryZero.Embedding) = false :=
  ⟨by decide, by decide!, by decide!, by decide!, by decide!⟩

/-- A non-empty corpus of the query's dimension, entry and query non-zero, on
which `FindBestDataset` returns nil: the entry `[-1]` has the score `-1`
against the query `[1]`; and the entry `[1]` has the exact cosine similarity
1 with the query `[2^70]`, but the squared magnitude `2^140` of the query
overflows `float32`, so that the computed score is `2^70 / +Inf = 0`. -/
theorem FindBestDataset_nil_for_nonempty_corpus :
    (([entryNeg] ≠ [] ∧
        (∀ d ∈ [entryNeg], d.Embedding.length = [one].length ∧
          ∃ e ∈ d.Embedding, e ≠ Fl.fin false 0 ∧ e ≠ Fl.fin true 0) ∧
        (∃ t ∈ [one], t ≠ Fl.fin false 0 ∧ t ≠ Fl.fin true 0)) ∧
      score ieee [one] entryNeg.Embedding = minusOne ∧
      FindBestDataset ieee [entryNeg] [one] = .ok none) ∧
    (([entryA] ≠ [] ∧
        (∀ d ∈ [entryA], d.Embedding.length = [Fl.ofScaled (2 ^ 70) 0].length ∧
          ∃ e ∈ d.Embedding, e ≠ Fl.fin false 0 ∧ e ≠ Fl.fin true 0) ∧
        (∃ t ∈ [Fl.ofScaled (2 ^ 70) 0], t ≠ Fl.fin false 0 ∧ t ≠ Fl.fin true 0)) ∧
      Fl.toRat (Fl.ofScaled (2 ^ 70) 0) = 2 ^ 70 ∧
      Fl.toRat one = 1 ∧
      cosineSimilarity Real.sqrt [(2 : ℝ) ^ 70] [1] = 1 ∧
      score ieee [Fl.ofScaled (2 ^ 70) 0] entryA.Embedding = Fl.fin false 0 ∧
      FindBestDataset ieee [entryA] [Fl.ofScaled (2 ^ 70) 0] = .ok none) := by
  have h1 : Fl.ofScaled (2 ^ 70) 0 = Fl.fin false (2 ^ 70 * 2 ^ 1074) := by decide!
  have h2 : one = Fl.fin false (1 * 2 ^ 1074) := by decide!
  have h3 : Real.sqrt ((2 : ℝ) ^ 70 * (2 : ℝ) ^ 70) = (2 : ℝ) ^ 70 :=
    Real.sqrt_mul_self (by positivity)
  refine ⟨⟨⟨by decide, by decide!, by decide!⟩, by decide!, by decide!⟩,
    ⟨by decide, by decide!, by decide!⟩, ?_, ?_, ?_, by decide!, by decide!⟩
  · rw [h1, Fl.toRat_of_units]
    norm_num
  · rw [h2, Fl.toRat_of_units]
    norm_num
  · simp [cosineSimilarity, dot, normSq, h3]

/-- Claim C3, amended: on a non-empty corpus of the query's dimension, with
non-zero entries and a non-zero query, `FindBestDataset` returns no error; it
returns an entry exactly when the `float32` score the code computes for some
entry is strictly greater than zero.  That entry belongs to the corpus, its
computed score is greater than zero and no entry has a greater computed score
(each is lower, equal or NaN).  When no computed score exceeds zero the
result is nil. -/
theorem FindBestDataset_best_positive_score (datasets : List (Dataset Fl)) (target : List Fl)
    (_hne : datasets ≠ [])
    (hdim : ∀ d ∈ datasets, d.Embedding.length = target.length)
    (_hmag : ∀ d ∈ datasets, ∃ e ∈ d.Embedding, e ≠ Fl.fin false 0 ∧ e ≠ Fl.fin true 0)
    (_hq : ∃ t ∈ target, t ≠ Fl.fin false 0 ∧ t ≠ Fl.fin true 0) :
    ((∃ d ∈ datasets, Fl.gt (score ieee target d.Embedding) (Fl.fin false 0) = true) →
        ∃ best ∈ datasets, FindBestDataset ieee datasets target = .ok (some best) ∧
          Fl.gt (score ieee target best.Embedding) (Fl.fin false 0) = true ∧
          ∀ d ∈ datasets,
            Fl.gt (score ieee target d.Embedding) (score ieee target best.Embedding) = false) ∧
      ((∀ d ∈ datasets, Fl.gt (score ieee target d.Embedding) (Fl.fin false 0) = false) →
        FindBestDataset ieee datasets target = .ok none) := by
  have hok : ∃ r, FindBestDataset ieee datasets target = .ok r := by
    cases hres : FindBestDataset ieee datasets target with
    | ok r => exact ⟨r, rfl⟩
    | error msg =>
      obtain ⟨d, hd, hlen⟩ :=
        (findBestLoop_error_iff ieee target datasets none ieee.zero).mp ⟨msg, hres⟩
      exact absurd (hdim d hd) hlen
  obtain ⟨r, hr⟩ := hok
  cases r with
  | none =>
    have hall := FindBestDataset_ieee_none datasets target hr
    constructor
    · rintro ⟨d, hd, hpos⟩
      rw [hall d hd] at hpos
      exact absurd hpos (by simp)
    · intro _
      exact hr
  | some best =>
    obtain ⟨pre, post, hsplit, hpos, hpre, hpost⟩ := FindBestDataset_ieee_some datasets target best hr
    constructor
    · intro _
      refine ⟨best, by simp [hsplit], hr, hpos, ?_⟩
      intro x hx
      rw [hsplit] at hx
      rcases List.mem_append.mp hx with hx | hx
      · rcases hpre x hx with hnan | hlt
        · rw [hnan]
          cases score ieee target best.Embedding <;> rfl
        · exact Fl.gt_asymm _ _ hlt
      · rcases List.mem_cons.mp hx with rfl | hx
        · exact Fl.gt_irrefl _
        · exact hpost x hx
    · intro hall
      rw [hall best (by simp [hsplit])] at hpos
      exact absurd hpos (by simp)

/-- A corpus with one negative and one positive score: the positive entry is
returned. -/
theorem FindBestDataset_best_positive_score_witness :
    ([entryNeg, entryB] ≠ [] ∧
      (∀ d ∈ [entryNeg, entryB], d.Embedding.length = [one].length) ∧
      (∀ d ∈ [entryNeg, entryB], ∃ e ∈ d.Embedding, e ≠ Fl.fin false 0 ∧ e ≠ Fl.fin true 0) ∧
      (∃ t ∈ [one], t ≠ Fl.fin false 0 ∧ t ≠ Fl.fin true 0)) ∧
    ((∃ d ∈ [entryNeg, entryB], Fl.gt (score ieee [one] d.Embedding) (Fl.fin false 0) = true) →
        ∃ best ∈ [entryNeg, entryB],
          FindBestDataset ieee [entryNeg, entryB] [one] = .ok (some best) ∧
          Fl.gt (score ieee [one] best.Embedding) (Fl.fin false 0) = true ∧
          ∀ d ∈ [entryNeg, entryB],
            Fl.gt (score ieee [one] d.Embedding) (score ieee [one] best.Embedding) = false) ∧
      ((∀ d ∈ [entryNeg, entryB],
          Fl.gt (score ieee [one] d.Embedding) (Fl.fin false 0) = false) →
        FindBestDataset ieee [entryNeg, entryB] [one] = .ok none) ∧
    FindBestDataset ieee [entryNeg, entryB] [one] = .ok (some entryB) :=
  ⟨⟨by decide, by decide, by decide!, by decide!⟩,
    (FindBestDataset_best_positive_score [entryNeg, entryB] [one]
      (by decide) (by decide) (by decide!) (by decide!)).1,
    (FindBestDataset_best_positive_score [entryNeg, entryB] [one]
      (by decide) (by decide) (by decide!) (by decide!)).2,
    by decide!⟩

/-- Rounding can reorder scores: the first entry is a multiple of the query
`[3, 4]`, of exact cosine similarity 1, and its computed score is
`1 - 2^(-24)`; the second entry has a smaller exact cosine similarity and the
computed score 1, and is the one returned. -/
theorem FindBestDataset_rounding_example :
    score ieee [Fl.ofScaled 3 0, Fl.ofScaled 4 0] [Fl.ofScaled 55875 0, Fl.ofScaled 74500 0] =
        Fl.ofScaled 16777215 24 ∧
      score ieee [Fl.ofScaled 3 0, Fl.ofScaled 4 0] [Fl.ofScaled 985 0, Fl.ofScaled 1314 0] =
        one ∧
      FindBestDataset ieee
          [{ Embedding := [Fl.ofScaled 55875 0, Fl.ofScaled 74500 0], Filename := "data/a" },
            { Embedding := [Fl.ofScaled 985 0, Fl.ofScaled 1314 0], Filename := "data/b" }]
          [Fl.ofScaled 3 0, Fl.ofScaled 4 0] =
        .ok (some { Embedding := [Fl.ofScaled 985 0, Fl.ofScaled 1314 0],
                    Filename := "data/b" }) :=
  ⟨by decide!, by decide!, by decide!⟩

/-! ## Corpus construction: `GenerateDatasets` -/

/-- Claim C10, at the failing path: when a file opens, `io.ReadAll` returns an
error next to the bytes it read and the embedding call succeeds,
`GenerateDatasets` returns no error: it pairs the embedding of the partial
content with the file name. -/
theorem GenerateDatasets_read_error_ignored {α : Type} (env : Env α)
    (integrationID apiToken filename : String) (file : File) (e : String) (emb : List α)
    (hopen : env.Open filename = .ok file) (_hread : file.readErr = some e)
    (hemb : (Create env integrationID apiToken file.content).2 = .ok emb) :
    GenerateDatasets env integrationID apiToken [filename] =
      ([Event.openFile filename, Event.readAll filename,
          Event.embeddings integrationID apiToken env.ModelEmbeddings [file.content]],
        .ok [{ Embedding := emb, Filename := filename }]) := by
  have hc : Create env integrationID apiToken file.content =
      ([Event.embeddings integrationID apiToken env.ModelEmbeddings [file.content]], .ok emb) := by
    ext1
    · simp [Create]
    · exact hemb
  simp [GenerateDatasets, hopen, hc]

/-- A read of `data/go.md` that breaks off after two bytes still yields a
dataset. -/
theorem GenerateDatasets_read_error_ignored_witness :
    (shortReadEnv.Open "data/go.md" =
        .ok { content := "Go", readErr := some "read data/go.md: input/output error" } ∧
      (some "read data/go.md: input/output error" : Option String) =
        some "read data/go.md: input/output error" ∧
      (Create shortReadEnv "id" "tok" "Go").2 = .ok [one]) ∧
    GenerateDatasets shortReadEnv "id" "tok" ["data/go.md"] =
      ([Event.openFile "data/go.md", Event.readAll "data/go.md",
          Event.embeddings "id" "tok" "text-embedding-ada-002" ["Go"]],
        .ok [{ Embedding := [one], Filename := "data/go.md" }]) :=
  ⟨⟨rfl, rfl, rfl⟩,
    GenerateDatasets_read_error_ignored shortReadEnv "id" "tok" "data/go.md"
      { content := "Go", readErr := some "read data/go.md: input/output error" }
      "read data/go.md: input/output error" [one] rfl rfl rfl⟩

/-- The construction of the corpus never calls the completion provider. -/
theorem GenerateDatasets_log_no_chat {α : Type} (env : Env α) (integrationID apiToken : String)
    (filenames : List String) (integ tok : String) (creq : ChatCompletionsRequest) :
    Event.chatCompletions integ tok creq ∉
      (GenerateDatasets env integrationID apiToken filenames).1 := by
  induction filenames with
  | nil => simp [GenerateDatasets]
  | cons filename rest ih =>
    unfold GenerateDatasets
    cases ho : env.Open filename with
    | error e => simp
    | ok file =>
      rcases hc : Create env integrationID apiToken file.content with ⟨log, r⟩
      have hlog : log = [Event.embeddings integrationID apiToken env.ModelEmbeddings [file.content]] := by
        have := congrArg Prod.fst hc
        simpa [Create] using this.symm
      subst hlog
      cases r with
      | error e => simp [hc]
      | ok emb =>
        rcases hg : GenerateDatasets env integrationID apiToken rest with ⟨logRest, r2⟩
        rw [hg] at ih
        cases r2 with
        | error e => simpa [hc, hg] using ih
        | ok ds => simpa [hc, hg] using ih

/-- The `Once` step never calls the completion provider. -/
theorem datasetsInitDo_log_no_chat {α : Type} (env : Env α) (integrationID apiToken : String)
    (s : Service α) (integ tok : String) (creq : ChatCompletionsRequest) :
    Event.chatCompletions integ tok creq ∉ (datasetsInitDo env integrationID apiToken s).2.1 := by
  unfold datasetsInitDo
  by_cases hdone : s.datasetsInit
  · simp [hdone]
  · simp only [hdone]
    cases hd : env.ReadDir "data" with
    | error e => simp
    | ok files =>
      have h := GenerateDatasets_log_no_chat env integrationID apiToken
        (files.map (fun name => "data/" ++ name)) integ tok creq
      rcases hg : GenerateDatasets env integrationID apiToken
        (files.map (fun name => "data/" ++ name)) with ⟨log, r⟩
      rw [hg] at h
      cases r with
      | error e => simpa [hg] using h
      | ok ds => simpa [hg] using h

/-- After a failed corpus step on a new service the `Once` has run and the
corpus is empty. -/
theorem datasetsInitDo_failure_state {α : Type} (env : Env α) (integrationID apiToken : String)
    (pubKey : PublicKey) (err : String)
    (h : (datasetsInitDo env integrationID apiToken (NewService pubKey)).2.2 = some err) :
    (datasetsInitDo env integrationID apiToken (NewService pubKey)).1 =
      { pubKey := pubKey, datasets := [], datasetsInit := true } := by
  unfold datasetsInitDo at h ⊢
  simp only [NewService, Bool.false_eq_true, if_false] at h ⊢
  cases hd : env.ReadDir "data" with
  | error e => simp
  | ok files =>
    rcases hg : GenerateDatasets env integrationID apiToken
      (files.map (fun name => "data/" ++ name)) with ⟨log, r⟩
    cases r with
    | error e => simp [hg]
    | ok ds => simp [hd, hg] at h

/-! ## Signature check: `validPayload` and `ChatCompletion` -/

/-- Claim C1, at the failing path: when the signature is valid base64 and
`asn1.Unmarshal` parses it without error but returns a non-empty `rest`,
`validPayload` returns `false` together with a nil error. -/
theorem validPayload_trailing_bytes_nil_error (lib : StdLib) (data : Bytes) (sig : String)
    (publicKey : PublicKey)
    (asnSig : Bytes) (parsedSig : asn1Signature) (rest : Bytes)
    (hdecode : lib.DecodeString sig = .ok asnSig)
    (hparse : lib.Unmarshal asnSig = (parsedSig, rest, none))
    (hrest : rest ≠ []) :
    validPayload lib data sig publicKey = (false, none) := by
  simp [validPayload, hdecode, hparse, hrest]


/-- The DER signature `(1, 1)` followed by one zero byte. -/
theorem validPayload_trailing_bytes_nil_error_witness :
    sampleLib.DecodeString "MAYCAQECAQEA" = .ok [48, 6, 2, 1, 1, 2, 1, 1, 0] ∧
      sampleLib.Unmarshal [48, 6, 2, 1, 1, 2, 1, 1, 0] = ({ R := 1, S := 1 }, [0], none) ∧
      ([0] : Bytes) ≠ [] ∧
      validPayload sampleLib [123, 125] "MAYCAQECAQEA" { X := 1, Y := 1 } = (false, none) :=
  ⟨rfl, rfl, by decide,
    validPayload_trailing_bytes_nil_error sampleLib [123, 125] "MAYCAQECAQEA" { X := 1, Y := 1 } [48, 6, 2, 1, 1, 2, 1, 1, 0]
      { R := 1, S := 1 } [0] rfl rfl (by decide)⟩

/-! ## The pipeline: `generateCompletion` -/

section Pipeline

variable {α : Type}

/-- Claim C2: when the body is read and `validPayload` returns `false` with a
nil error, `ChatCompletion` answers 401 with the text of `http.Error` and
does nothing else: the service is unchanged and the log holds no other call
(no directory read, no file access, no embedding or completion request). -/
theorem ChatCompletion_invalid_signature_unauthorized (env : Env α) (lib : StdLib) (w : Sink)
    (s : Service α) (r : Request)
    (body : Bytes) (hbody : r.Body = .ok body)
    (hsig : validPayload lib body r.Signature s.pubKey = (false, none)) :
    (ChatCompletion env lib w s r).service = s ∧
      (ChatCompletion env lib w s r).log =
        [Event.writeHeader 401, Event.write "invalid payload signature\n"] ∧
      (ChatCompletion env lib w s r).crashed = false := by
  simp [ChatCompletion, hbody, hsig]

/-- No message of the list is a candidate, or the list splits at its first candidate. -/
theorem first_candidate_split (msgs : List ChatMessage) :
    (∀ m ∈ msgs, ¬ (m.Role = "user" ∧ m.Content ≠ "")) ∨
      ∃ newer msg older, msgs = newer ++ msg :: older ∧
        (∀ m ∈ newer, ¬ (m.Role = "user" ∧ m.Content ≠ "")) ∧
        msg.Role = "user" ∧ msg.Content ≠ "" := by
  induction msgs with
  | nil => left; simp
  | cons m rest ih =>
    by_cases hm : m.Role = "user" ∧ m.Content ≠ ""
    · right
      exact ⟨[], m, rest, rfl, by simp, hm.1, hm.2⟩
    · rcases ih with hnone | ⟨newer, msg, older, hsplit, hnewer, hrole, hcontent⟩
      · left
        intro x hx
        rcases List.mem_cons.mp hx with rfl | hx
        · exact hm
        · exact hnone x hx
      · right
        refine ⟨m :: newer, msg, older, by simp [hsplit], ?_, hrole, hcontent⟩
        intro x hx
        rcases List.mem_cons.mp hx with rfl | hx
        · exact hm
        · exact hnewer x hx

theorem augmentLoop_no_candidate (env : Env α) (datasets : List (Dataset α))
    (integrationID apiToken : String) (msgs : List ChatMessage)
    (h : ∀ m ∈ msgs, ¬ (m.Role = "user" ∧ m.Content ≠ "")) :
    augmentLoop env datasets integrationID apiToken msgs = ([], .ok []) := by
  induction msgs with
  | nil => rfl
  | cons m rest ih =>
    have hm := h m (by simp)
    have hrest := ih (fun x hx => h x (by simp [hx]))
    by_cases hrole : m.Role = "user"
    · have hcontent : m.Content = "" := by
        by_contra hc
        exact hm ⟨hrole, hc⟩
      simp [augmentLoop, hrole, hcontent, hrest]
    · simp [augmentLoop, hrole, hrest]

theorem augmentLoop_candidate (env : Env α) (datasets : List (Dataset α))
    (integrationID apiToken : String) (newer : List ChatMessage) (msg : ChatMessage)
    (older : List ChatMessage)
    (hnewer : ∀ m ∈ newer, ¬ (m.Role = "user" ∧ m.Content ≠ ""))
    (hrole : msg.Role = "user") (hcontent : msg.Content ≠ "") :
    augmentLoop env datasets integrationID apiToken (newer ++ msg :: older) =
      retrieveContext env datasets integrationID apiToken msg.Content := by
  induction newer with
  | nil => simp [augmentLoop, hrole, hcontent]
  | cons m rest ih =>
    have hm := hnewer m (by simp)
    have hrest := ih (fun x hx => hnewer x (by simp [hx]))
    by_cases hr : m.Role = "user"
    · have hc : m.Content = "" := by
        by_contra hc
        exact hm ⟨hr, hc⟩
      simp [augmentLoop, hr, hc, hrest]
    · simp [augmentLoop, hr, hrest]

/-- The calls and the result of `retrieveContext`, case by case. -/
theorem retrieveContext_cases (env : Env α) (datasets : List (Dataset α))
    (integrationID apiToken content : String) :
    ((retrieveContext env datasets integrationID apiToken content).1.filter isEmbeddingsCall =
      [Event.embeddings integrationID apiToken env.ModelEmbeddings [content]]) ∧
    (∀ integ tok creq, Event.chatCompletions integ tok creq ∉
      (retrieveContext env datasets integrationID apiToken content).1) ∧
    (∀ messages, (retrieveContext env datasets integrationID apiToken content).2 = .ok messages →
      (messages = [] ∧ ∃ emb, (Create env integrationID apiToken content).2 = .ok emb ∧
          FindBestDataset env.arith datasets emb = .ok none) ∨
      ∃ emb dataset file, (Create env integrationID apiToken content).2 = .ok emb ∧
        FindBestDataset env.arith datasets emb = .ok (some dataset) ∧
        env.Open dataset.Filename = .ok file ∧ file.readErr = none ∧
        messages = [{ Role := "system", Content := preamble ++ file.content }]) := by
  unfold retrieveContext
  rcases hc : Create env integrationID apiToken content with ⟨log, r⟩
  have hlog : log = [Event.embeddings integrationID apiToken env.ModelEmbeddings [content]] := by
    have := congrArg Prod.fst hc
    simpa [Create] using this.symm
  subst hlog
  cases r with
  | error e => simp [isEmbeddingsCall]
  | ok emb =>
    cases hf : FindBestDataset env.arith datasets emb with
    | error e => simp [hf, isEmbeddingsCall]
    | ok best =>
      cases best with
      | none => simp [hf, isEmbeddingsCall]
      | some dataset =>
        cases ho : env.Open dataset.Filename with
        | error e => simp [hf, ho, isEmbeddingsCall]
        | ok file =>
          cases hr : file.readErr with
          | some e => simp [hf, ho, hr, isEmbeddingsCall]
          | none => simp [hf, ho, hr, isEmbeddingsCall]


/-- The shape of the log of `generateCompletion` on a non-nil request. -/
theorem generateCompletion_log (env : Env α) (w : Sink) (integrationID apiToken : String)
    (s : Service α) (req : ChatRequest) :
    ((datasetsInitDo env integrationID apiToken s).2.2 ≠ none ∧
      (generateCompletion env w integrationID apiToken s (some req)).log =
        (datasetsInitDo env integrationID apiToken s).2.1) ∨
    ((datasetsInitDo env integrationID apiToken s).2.2 = none ∧
      ∃ tail, (generateCompletion env w integrationID apiToken s (some req)).log =
          (datasetsInitDo env integrationID apiToken s).2.1 ++
            (augmentLoop env (datasetsInitDo env integrationID apiToken s).1.datasets
              integrationID apiToken req.Messages.reverse).1 ++ tail ∧
        (∀ e ∈ tail, isEmbeddingsCall e = false ∧ e ≠ Event.findBestDataset) ∧
        ∀ integ tok creq, Event.chatCompletions integ tok creq ∈ tail →
          ∃ messages, (augmentLoop env (datasetsInitDo env integrationID apiToken s).1.datasets
              integrationID apiToken req.Messages.reverse).2 = .ok messages ∧
            integ = "copilot-chat" ∧ tok = apiToken ∧
            creq = { Model := env.ModelGPT35, Messages := messages ++ req.Messages,
                     Stream := true }) := by
  rcases hi : datasetsInitDo env integrationID apiToken s with ⟨s1, log0, e0⟩
  cases e0 with
  | some err => left; simp [generateCompletion, hi]
  | none =>
    right
    refine ⟨rfl, ?_⟩
    rcases ha : augmentLoop env s1.datasets integrationID apiToken req.Messages.reverse with ⟨log1, r⟩
    cases r with
    | error e =>
      refine ⟨[], ?_, by simp, by simp⟩
      simp [generateCompletion, hi, ha]
    | ok messages =>
      cases hc : env.ChatCompletions "copilot-chat" apiToken
          { Model := env.ModelGPT35, Messages := messages ++ req.Messages, Stream := true } with
      | error e =>
        refine ⟨[Event.chatCompletions "copilot-chat" apiToken
          { Model := env.ModelGPT35, Messages := messages ++ req.Messages, Stream := true }],
          ?_, ?_, ?_⟩
        · simp [generateCompletion, hi, ha, hc]
        · simp [isEmbeddingsCall]
        · intro integ tok creq hmem
          simp at hmem
          exact ⟨messages, rfl, hmem.1, hmem.2.1, hmem.2.2⟩
      | ok stream =>
        refine ⟨[Event.chatCompletions "copilot-chat" apiToken
          { Model := env.ModelGPT35, Messages := messages ++ req.Messages, Stream := true }]
            ++ (forwardStream w stream).1.map Event.write ++ [Event.closeStream], ?_, ?_, ?_⟩
        · simp [generateCompletion, hi, ha, hc]
        · intro e he
          simp at he
          rcases he with rfl | ⟨d, _, rfl⟩ | rfl <;> simp [isEmbeddingsCall]
        · intro integ tok creq hmem
          simp at hmem
          exact ⟨messages, rfl, hmem.1, hmem.2.1, hmem.2.2⟩


/-- Claim C7: once the corpus step has passed, what `generateCompletion` does
after it embeds at most one text.  If the request has a message with role
`user` and non-empty content, the only embedding call is for the content of
the last such message (no message after it qualifies); if it has none, no
embedding call and no retrieval is made. -/
theorem generateCompletion_embeds_newest_user_message (env : Env α) (w : Sink)
    (integrationID apiToken : String) (s : Service α)
    (req : ChatRequest) (hinit : (datasetsInitDo env integrationID apiToken s).2.2 = none) :
    ∃ rest, (generateCompletion env w integrationID apiToken s (some req)).log =
        (datasetsInitDo env integrationID apiToken s).2.1 ++ rest ∧
      ((∃ older msg newer, req.Messages = older ++ msg :: newer ∧
          msg.Role = "user" ∧ msg.Content ≠ "" ∧
          (∀ m ∈ newer, ¬ (m.Role = "user" ∧ m.Content ≠ "")) ∧
          rest.filter isEmbeddingsCall =
            [Event.embeddings integrationID apiToken env.ModelEmbeddings [msg.Content]]) ∨
        ((∀ m ∈ req.Messages, ¬ (m.Role = "user" ∧ m.Content ≠ "")) ∧
          ∀ e ∈ rest, isEmbeddingsCall e = false ∧ e ≠ Event.findBestDataset)) := by
  rcases generateCompletion_log env w integrationID apiToken s req with
    ⟨hne, _⟩ | ⟨_, tail, hlog, htail, _⟩
  · exact absurd hinit hne
  · rcases first_candidate_split req.Messages.reverse with
      hnone | ⟨newer, msg, older, hsplit, hnewer, hrole, hcontent⟩
    · rw [augmentLoop_no_candidate env _ integrationID apiToken _ hnone] at hlog
      refine ⟨tail, by simpa using hlog, Or.inr ⟨?_, htail⟩⟩
      intro m hm
      exact hnone m (List.mem_reverse.mpr hm)
    · rw [hsplit, augmentLoop_candidate env _ integrationID apiToken newer msg older
        hnewer hrole hcontent] at hlog
      refine ⟨_, by rw [hlog, List.append_assoc], Or.inl ⟨older.reverse, msg, newer.reverse, ?_, hrole,
        hcontent, ?_, ?_⟩⟩
      · have := congrArg List.reverse hsplit
        simpa using this
      · intro m hm
        exact hnewer m (List.mem_reverse.mp hm)
      · have htail2 : tail.filter isEmbeddingsCall = [] := by
          rw [List.filter_eq_nil_iff]
          intro e he
          simp [(htail e he).1]
        rw [List.filter_append, htail2, List.append_nil]
        exact (retrieveContext_cases env _ integrationID apiToken msg.Content).1

/-- Claim C8: every request `generateCompletion` sends to the completion
client carries either exactly the request's messages (no message qualifies
as query, or retrieval for the query found no entry), or one `system` message
made of the preamble and the content of the file of the entry retrieved for
the embedded query, followed by the request's messages unchanged. -/
theorem generateCompletion_outgoing_messages (env : Env α) (w : Sink)
    (integrationID apiToken : String) (s : Service α)
    (req : ChatRequest) (integ tok : String) (creq : ChatCompletionsRequest)
    (h : Event.chatCompletions integ tok creq ∈
      (generateCompletion env w integrationID apiToken s (some req)).log) :
    integ = "copilot-chat" ∧ tok = apiToken ∧ creq.Model = env.ModelGPT35 ∧
      creq.Stream = true ∧
      ((creq.Messages = req.Messages ∧
          ((∀ m ∈ req.Messages, ¬ (m.Role = "user" ∧ m.Content ≠ "")) ∨
            ∃ older msg newer emb, req.Messages = older ++ msg :: newer ∧
              msg.Role = "user" ∧ msg.Content ≠ "" ∧
              (∀ m ∈ newer, ¬ (m.Role = "user" ∧ m.Content ≠ "")) ∧
              (Create env integrationID apiToken msg.Content).2 = .ok emb ∧
              FindBestDataset env.arith
                (datasetsInitDo env integrationID apiToken s).1.datasets emb = .ok none)) ∨
        ∃ older msg newer emb dataset file, req.Messages = older ++ msg :: newer ∧
          msg.Role = "user" ∧ msg.Content ≠ "" ∧
          (∀ m ∈ newer, ¬ (m.Role = "user" ∧ m.Content ≠ "")) ∧
          (Create env integrationID apiToken msg.Content).2 = .ok emb ∧
          FindBestDataset env.arith
            (datasetsInitDo env integrationID apiToken s).1.datasets emb = .ok (some dataset) ∧
          env.Open dataset.Filename = .ok file ∧ file.readErr = none ∧
          creq.Messages =
            { Role := "system", Content := preamble ++ file.content } :: req.Messages) := by
  rcases generateCompletion_log env w integrationID apiToken s req with
    ⟨_, hlog⟩ | ⟨_, tail, hlog, _, htail⟩
  · rw [hlog] at h
    exact absurd h (datasetsInitDo_log_no_chat env integrationID apiToken s integ tok creq)
  · rw [hlog] at h
    rcases first_candidate_split req.Messages.reverse with
      hnone | ⟨newer, msg, older, hsplit, hnewer, hrole, hcontent⟩
    · rw [augmentLoop_no_candidate env _ integrationID apiToken _ hnone] at h htail
      simp only [List.append_nil, List.mem_append] at h
      rcases h with h | h
      · exact absurd h (datasetsInitDo_log_no_chat env integrationID apiToken s integ tok creq)
      · obtain ⟨messages, hm, hi, ht, hc⟩ := htail integ tok creq h
        simp at hm
        subst hm hc
        refine ⟨hi, ht, rfl, rfl, Or.inl ⟨by simp, Or.inl ?_⟩⟩
        intro m hmem
        exact hnone m (List.mem_reverse.mpr hmem)
    · have hmsgs : req.Messages = older.reverse ++ msg :: newer.reverse := by
        have := congrArg List.reverse hsplit
        simpa using this
      have hnewer2 : ∀ m ∈ newer.reverse, ¬ (m.Role = "user" ∧ m.Content ≠ "") :=
        fun m hm => hnewer m (List.mem_reverse.mp hm)
      rw [hsplit, augmentLoop_candidate env _ integrationID apiToken newer msg older
        hnewer hrole hcontent] at h htail
      obtain ⟨_, hnochat, hres⟩ := retrieveContext_cases env
        (datasetsInitDo env integrationID apiToken s).1.datasets integrationID apiToken msg.Content
      simp only [List.mem_append] at h
      rcases h with (h | h) | h
      · exact absurd h (datasetsInitDo_log_no_chat env integrationID apiToken s integ tok creq)
      · exact absurd h (hnochat integ tok creq)
      · obtain ⟨messages, hm, hi, ht, hc⟩ := htail integ tok creq h
        subst hc
        refine ⟨hi, ht, rfl, rfl, ?_⟩
        rcases hres messages hm with ⟨rfl, emb, hcreate, hfind⟩ |
          ⟨emb, dataset, file, hcreate, hfind, hopen, hread, rfl⟩
        · exact Or.inl ⟨by simp, Or.inr ⟨older.reverse, msg, newer.reverse, emb, hmsgs, hrole,
            hcontent, hnewer2, hcreate, hfind⟩⟩
        · exact Or.inr ⟨older.reverse, msg, newer.reverse, emb, dataset, file, hmsgs, hrole,
            hcontent, hnewer2, hcreate, hfind, hopen, hread, by simp⟩

/-- Claim C6, at the failing path: when the corpus step of the first call on a
new service fails, that call returns the construction error, and in every
later call the corpus step runs nothing and reports no error, the corpus
being empty. -/
theorem generateCompletion_failed_build_forgotten (env env2 : Env α) (w : Sink)
    (integrationID apiToken integrationID2 apiToken2 : String) (pubKey : PublicKey)
    (req : Option ChatRequest) (err : String)
    (hfail : (datasetsInitDo env integrationID apiToken (NewService pubKey)).2.2 = some err) :
    (generateCompletion env w integrationID apiToken (NewService pubKey) req).result =
        .error err ∧
      datasetsInitDo env2 integrationID2 apiToken2
          (generateCompletion env w integrationID apiToken (NewService pubKey) req).service =
        ({ pubKey := pubKey, datasets := [], datasetsInit := true }, [], none) := by
  have hstate := datasetsInitDo_failure_state env integrationID apiToken pubKey err hfail
  rcases hi : datasetsInitDo env integrationID apiToken (NewService pubKey) with ⟨s1, log0, e0⟩
  rw [hi] at hfail hstate
  simp only at hfail hstate
  subst hfail hstate
  simp only [generateCompletion, hi]
  simp [datasetsInitDo]

end Pipeline

/-- The newest non-empty user message of `sampleRequest` is the one embedded. -/
theorem generateCompletion_embeds_newest_user_message_witness :
    (datasetsInitDo sampleEnv "id" "tok" (NewService { X := 1, Y := 1 })).2.2 = none ∧
    ∃ rest, (generateCompletion sampleEnv okSink "id" "tok"
          (NewService { X := 1, Y := 1 }) (some sampleRequest)).log =
        (datasetsInitDo sampleEnv "id" "tok" (NewService { X := 1, Y := 1 })).2.1 ++
          rest ∧
      ((∃ older msg newer, sampleRequest.Messages = older ++ msg :: newer ∧
          msg.Role = "user" ∧ msg.Content ≠ "" ∧
          (∀ m ∈ newer, ¬ (m.Role = "user" ∧ m.Content ≠ "")) ∧
          rest.filter isEmbeddingsCall =
            [Event.embeddings "id" "tok" sampleEnv.ModelEmbeddings [msg.Content]]) ∨
        ((∀ m ∈ sampleRequest.Messages, ¬ (m.Role = "user" ∧ m.Content ≠ "")) ∧
          ∀ e ∈ rest, isEmbeddingsCall e = false ∧ e ≠ Event.findBestDataset)) :=
  ⟨rfl, generateCompletion_embeds_newest_user_message sampleEnv okSink "id" "tok"
    (NewService { X := 1, Y := 1 }) sampleRequest rfl⟩

/-- The request sent for `sampleRequest` starts with the system message built
from `data/go.md`. -/
theorem generateCompletion_outgoing_messages_witness :
    Event.chatCompletions "copilot-chat" "tok" sampleOutgoing ∈
        (generateCompletion sampleEnv okSink "id" "tok"
          (NewService { X := 1, Y := 1 }) (some sampleRequest)).log ∧
    ("copilot-chat" = "copilot-chat" ∧ "tok" = "tok" ∧
      sampleOutgoing.Model = sampleEnv.ModelGPT35 ∧
      sampleOutgoing.Stream = true ∧
      ((sampleOutgoing.Messages = sampleRequest.Messages ∧
          ((∀ m ∈ sampleRequest.Messages, ¬ (m.Role = "user" ∧ m.Content ≠ "")) ∨
            ∃ older msg newer emb, sampleRequest.Messages = older ++ msg :: newer ∧
              msg.Role = "user" ∧ msg.Content ≠ "" ∧
              (∀ m ∈ newer, ¬ (m.Role = "user" ∧ m.Content ≠ "")) ∧
              (Create sampleEnv "id" "tok" msg.Content).2 = .ok emb ∧
              FindBestDataset sampleEnv.arith
                (datasetsInitDo sampleEnv "id" "tok"
                  (NewService { X := 1, Y := 1 })).1.datasets emb = .ok none)) ∨
        ∃ older msg newer emb dataset file, sampleRequest.Messages = older ++ msg :: newer ∧
          msg.Role = "user" ∧ msg.Content ≠ "" ∧
          (∀ m ∈ newer, ¬ (m.Role = "user" ∧ m.Content ≠ "")) ∧
          (Create sampleEnv "id" "tok" msg.Content).2 = .ok emb ∧
          FindBestDataset sampleEnv.arith
            (datasetsInitDo sampleEnv "id" "tok"
              (NewService { X := 1, Y := 1 })).1.datasets emb = .ok (some dataset) ∧
          sampleEnv.Open dataset.Filename = .ok file ∧ file.readErr = none ∧
          sampleOutgoing.Messages =
            { Role := "system", Content := preamble ++ file.content } ::
              sampleRequest.Messages)) := by
  have hmem : Event.chatCompletions "copilot-chat" "tok" sampleOutgoing ∈
      (generateCompletion sampleEnv okSink "id" "tok"
        (NewService { X := 1, Y := 1 }) (some sampleRequest)).log := by
    decide!
  exact ⟨hmem, generateCompletion_outgoing_messages sampleEnv okSink "id" "tok"
    (NewService { X := 1, Y := 1 }) sampleRequest "copilot-chat" "tok" sampleOutgoing hmem⟩

/-- Without a `data` directory the first call fails and the second one answers
from an empty corpus. -/
theorem generateCompletion_failed_build_forgotten_witness :
    (datasetsInitDo noDataEnv "id" "tok" (NewService { X := 1, Y := 1 })).2.2 =
      some "error reading files from \"data\" directory: open data: no such file or directory" ∧
    (generateCompletion noDataEnv okSink "id" "tok" (NewService { X := 1, Y := 1 })
        (some sampleRequest)).result =
      .error "error reading files from \"data\" directory: open data: no such file or directory" ∧
    (generateCompletion noDataEnv okSink "id" "tok"
        (generateCompletion noDataEnv okSink "id" "tok"
          (NewService { X := 1, Y := 1 }) (some sampleRequest)).service
        (some sampleRequest)).result = .ok ∧
    (generateCompletion noDataEnv okSink "id" "tok"
        (generateCompletion noDataEnv okSink "id" "tok"
          (NewService { X := 1, Y := 1 }) (some sampleRequest)).service
        (some sampleRequest)).log =
      [Event.embeddings "id" "tok" "text-embedding-ada-002" ["hello"],
        Event.findBestDataset,
        Event.chatCompletions "copilot-chat" "tok"
          { Model := "gpt-3.5-turbo", Messages := sampleRequest.Messages, Stream := true },
        Event.write "data: Hi", Event.write "\n", Event.write "data: [DONE]", Event.write "\n",
        Event.closeStream] :=
  ⟨rfl,
    (generateCompletion_failed_build_forgotten noDataEnv noDataEnv okSink
      "id" "tok" "id" "tok" { X := 1, Y := 1 } (some sampleRequest) _ rfl).1,
    rfl, rfl⟩

/-- A well-formed signature `(1, 1)` that the key `(1, 2)` rejects. -/
theorem ChatCompletion_invalid_signature_unauthorized_witness :
    (Except.ok [123, 125] : Except String Bytes) = .ok [123, 125] ∧
      validPayload sampleLib [123, 125] "MAYCAQECAQE=" { X := 1, Y := 2 } = (false, none) ∧
      (ChatCompletion sampleEnv sampleLib okSink (NewService { X := 1, Y := 2 })
          { Signature := "MAYCAQECAQE=", Token := "tok", IntegrationID := "id",
            Body := .ok [123, 125] }).service = NewService { X := 1, Y := 2 } ∧
      (ChatCompletion sampleEnv sampleLib okSink (NewService { X := 1, Y := 2 })
          { Signature := "MAYCAQECAQE=", Token := "tok", IntegrationID := "id",
            Body := .ok [123, 125] }).log =
        [Event.writeHeader 401, Event.write "invalid payload signature\n"] ∧
      (ChatCompletion sampleEnv sampleLib okSink (NewService { X := 1, Y := 2 })
          { Signature := "MAYCAQECAQE=", Token := "tok", IntegrationID := "id",
            Body := .ok [123, 125] }).crashed = false :=
  ⟨rfl, by decide,
    ChatCompletion_invalid_signature_unauthorized sampleEnv sampleLib okSink (NewService { X := 1, Y := 2 })
      { Signature := "MAYCAQECAQE=", Token := "tok", IntegrationID := "id",
        Body := .ok [123, 125] } [123, 125] rfl (by decide)⟩

/-! ## Forwarding the stream -/

/-- No write to make: nothing can fail. -/
theorem allWritesSucceed_nil (w : Sink) (done : List String) : allWritesSucceed w done [] := by
  intro before x after h
  simp at h

/-- Success of a non-empty sequence, write by write. -/
theorem allWritesSucceed_cons (w : Sink) (done : List String) (x : String) (xs : List String) :
    allWritesSucceed w done (x :: xs) ↔
      w done x = none ∧ allWritesSucceed w (done ++ [x]) xs := by
  constructor
  · intro h
    refine ⟨by simpa using h [] x xs rfl, ?_⟩
    intro before y after hsplit
    have := h (x :: before) y after (by simp [hsplit])
    simpa using this
  · rintro ⟨hx, hxs⟩ before y after hsplit
    cases before with
    | nil =>
      simp at hsplit
      rw [← hsplit.1]; simpa using hx
    | cons b before =>
      simp at hsplit
      have := hxs before y after hsplit.2
      rw [← hsplit.1]
      simpa using this

/-- A sequence of writes succeeds as a whole or has a first failing write. -/
theorem firstFailure (w : Sink) (xs : List String) :
    ∀ done, allWritesSucceed w done xs ∨
      ∃ before x after e, xs = before ++ x :: after ∧ allWritesSucceed w done before ∧
        w (done ++ before) x = some e := by
  induction xs with
  | nil => intro done; exact Or.inl (allWritesSucceed_nil w done)
  | cons x xs ih =>
    intro done
    cases hx : w done x with
    | some e =>
      right
      exact ⟨[], x, xs, e, rfl, allWritesSucceed_nil w done, by simpa using hx⟩
    | none =>
      rcases ih (done ++ [x]) with hall | ⟨before, y, after, e, hsplit, hbefore, hy⟩
      · left
        exact (allWritesSucceed_cons w done x xs).mpr ⟨hx, hall⟩
      · right
        refine ⟨x :: before, y, after, e, by simp [hsplit], ?_, by simpa using hy⟩
        exact (allWritesSucceed_cons w done x before).mpr ⟨hx, hbefore⟩

/-- When every write succeeds the loop attempts all of them and returns no error. -/
theorem forwardLoop_all_ok (w : Sink) (lines : List String) :
    ∀ done, allWritesSucceed w done (framedLines lines) →
      forwardLoop w lines done = (done ++ framedLines lines, none) := by
  induction lines with
  | nil => intro done _; simp [forwardLoop, framedLines]
  | cons l rest ih =>
    intro done h
    rw [framedLines, allWritesSucceed_cons, allWritesSucceed_cons] at h
    obtain ⟨h1, h2, h3⟩ := h
    have := ih _ h3
    simp [forwardLoop, framedLines, h1, h2] at this ⊢
    exact this

/-- The loop stops right after the first failing write and returns an error. -/
theorem forwardLoop_first_failure (w : Sink) (lines : List String) :
    ∀ done before x after e, framedLines lines = before ++ x :: after →
      allWritesSucceed w done before → w (done ++ before) x = some e →
      (forwardLoop w lines done).1 = done ++ before ++ [x] ∧
        ∃ msg, (forwardLoop w lines done).2 = some msg := by
  induction lines with
  | nil => intro done before x after e h; simp [framedLines] at h
  | cons l rest ih =>
    intro done before x after e hsplit hbefore hx
    rw [framedLines] at hsplit
    match before, hsplit, hbefore, hx with
    | [], hsplit, _, hx =>
      simp at hsplit hx
      obtain ⟨rfl, _⟩ := hsplit
      simp [forwardLoop, hx]
    | [b], hsplit, hbefore, hx =>
      simp at hsplit
      obtain ⟨rfl, rfl, _⟩ := hsplit
      rw [allWritesSucceed_cons] at hbefore
      simp [forwardLoop, hbefore.1, hx]
    | b1 :: b2 :: before, hsplit, hbefore, hx =>
      simp at hsplit
      obtain ⟨rfl, rfl, hrest⟩ := hsplit
      rw [allWritesSucceed_cons, allWritesSucceed_cons] at hbefore
      obtain ⟨h1, h2, h3⟩ := hbefore
      have := ih (done ++ [l, "\n"]) before x after e hrest (by simpa using h3) (by simpa using hx)
      simp [forwardLoop, h1, h2] at this ⊢
      exact this

/-- Claim C9: the writes the forwarding loop attempts form a prefix of
`l1, "\n", ..., ln, "\n"`.  If every write succeeds they are the whole
sequence, and the result is success when the stream ended cleanly (or with an
error that is `io.EOF`).  If a write fails after all earlier ones succeeded,
the attempted writes end with that write and the result is an error. -/
theorem forwardStream_writes_until_first_failure (w : Sink) (lines : List String)
    (err : Option ReadError) :
    (forwardStream w { lines := lines, err := err }).1 <+: framedLines lines ∧
    (allWritesSucceed w [] (framedLines lines) →
      (forwardStream w { lines := lines, err := err }).1 = framedLines lines ∧
      ((err = none ∨ ∃ e, err = some e ∧ e.isEOF = true) →
        (forwardStream w { lines := lines, err := err }).2 = .ok)) ∧
    (∀ before x after, framedLines lines = before ++ x :: after →
      allWritesSucceed w [] before → w before x ≠ none →
      (forwardStream w { lines := lines, err := err }).1 = before ++ [x] ∧
      ∃ msg, (forwardStream w { lines := lines, err := err }).2 = .error msg) := by
  have hok : allWritesSucceed w [] (framedLines lines) →
      (forwardStream w { lines := lines, err := err }).1 = framedLines lines ∧
      ((err = none ∨ ∃ e, err = some e ∧ e.isEOF = true) →
        (forwardStream w { lines := lines, err := err }).2 = .ok) := by
    intro hall
    have h := forwardLoop_all_ok w lines [] hall
    constructor
    · simp only [forwardStream, h]
      cases err with
      | none => simp
      | some e => by_cases he : e.isEOF <;> simp [he]
    · rintro (rfl | ⟨e, rfl, he⟩)
      · simp [forwardStream, h]
      · simp [forwardStream, h, he]
  have hfail : ∀ before x after, framedLines lines = before ++ x :: after →
      allWritesSucceed w [] before → w before x ≠ none →
      (forwardStream w { lines := lines, err := err }).1 = before ++ [x] ∧
      ∃ msg, (forwardStream w { lines := lines, err := err }).2 = .error msg := by
    intro before x after hsplit hbefore hx
    obtain ⟨e, he⟩ := Option.ne_none_iff_exists'.mp hx
    obtain ⟨h1, msg, h2⟩ := forwardLoop_first_failure w lines [] before x after e hsplit hbefore
      (by simpa using he)
    have hpair : forwardLoop w lines [] = (before ++ [x], some msg) := by
      ext1
      · simpa using h1
      · simpa using h2
    simp [forwardStream, hpair]
  refine ⟨?_, hok, hfail⟩
  rcases firstFailure w (framedLines lines) [] with hall | ⟨before, x, after, e, hsplit, hbefore, hx⟩
  · rw [(hok hall).1]
  · have hx2 : w before x ≠ none := by
      simp at hx; simp [hx]
    rw [(hfail before x after hsplit hbefore hx2).1, hsplit]
    exact ⟨after, by simp⟩


/-- On a sink whose third write fails, two lines are forwarded up to the
second line and the result is an error. -/
theorem forwardStream_writes_until_first_failure_witness :
    (forwardStream brokenSink { lines := ["data: Hi", "data: [DONE]"], err := none }).1 =
        ["data: Hi", "\n"] ++ ["data: [DONE]"] ∧
      ∃ msg, (forwardStream brokenSink
        { lines := ["data: Hi", "data: [DONE]"], err := none }).2 = .error msg :=
  (forwardStream_writes_until_first_failure brokenSink ["data: Hi", "data: [DONE]"] none).2.2
    ["data: Hi", "\n"] "data: [DONE]" ["\n"] rfl
    (by
      intro before x after h
      match before, h with
      | [], h => simp at h; simp [brokenSink]
      | [_], h => simp at h; simp [brokenSink]
      | _ :: _ :: _, h => simp at h)
    (by simp [brokenSink])

end RagExtension
